import Mathlib

/-!
# Verification of the pyngb / pynetzsch NGB binary decoding core

A shallow embedding, over `List Nat` byte buffers, of the binary decoding
subsystem of the repository: table splitting (`BinaryParser.split_tables`
and the inline splitter of `DataStreamProcessor`), typed value decoding
(`BinaryParser.parse_value`), the data-type handler registry
(`DataTypeRegistry`), the stream-2/stream-3 data processors, the metadata
extractor of `pyngb.extractors.metadata` (scalar fields, crucible-mass
disambiguation, MFC channel assignment, PID control parameters), the
simpler metadata extractor of `pynetzsch.extractors.metadata`, and the
archive-level `NGBParser.parse` of `pynetzsch.core.parser`.

Bytes are modelled as `Nat` (the source only compares and slices them, so
no modular arithmetic is needed); Python byte strings are `List Nat`;
Python `str` values are lists of Unicode code points (`List Nat`); Python
floats are `PyNum` (an exact rational, or a NaN/infinity marker — IEEE-754
bit patterns are decoded exactly, and the source never performs float
arithmetic, only decoding and comparisons, so this is lossless).

The repository's `constants.py` (the `BinaryMarkers`, `DataType` and
`PatternConfig` values) is not part of the provided sources — only its
consumers are.  Structures and functions below are therefore parametric in
those constants, and concrete stand-in values (clearly marked as modelled
from the spec) are used only to instantiate witnesses and counterexamples.
-/

namespace NGB

/-! ## Python byte-string primitives

`List Nat` plays the role of `bytes`.  `pySlice` is Python's `s[a:b]`
(with negative-index wrap-around and clamping), `findFrom` is
`bytes.find(sub, start)` restricted to matches lying fully inside the
buffer, `rfindBelow` is `bytes.rfind(sub, 0, hi)`, `findInRange` is
`bytes.find(sub, lo, hi)`, and `containsSub` is Python's `sub in s`. -/

/-- Python slice `s[a:b]` over a list, with Python's negative-index and
clamping semantics. -/
def pySlice (s : List Nat) (a b : Int) : List Nat :=
  let n : Int := s.length
  let a' : Nat := (if a < 0 then max (n + a) 0 else min a n).toNat
  let b' : Nat := (if b < 0 then max (n + b) 0 else min b n).toNat
  (s.drop a').take (b' - a')

/-- Python slice `s[a:]` over a list. -/
def pySliceFrom (s : List Nat) (a : Int) : List Nat :=
  pySlice s a s.length

/-- Natural-number slice `s[a:b]` (no negative indices involved). -/
def sliceN (s : List Nat) (a b : Nat) : List Nat :=
  (s.drop a).take (b - a)

/-- First position `p ≥ start` at which `sub` occurs (fully) inside `s`:
Python's `s.find(sub, start)` (with `none` for `-1`). -/
def findFrom (sub s : List Nat) (start : Nat) : Option Nat :=
  ((List.range (s.length + 1)).filter
    (fun p => start ≤ p && sub.isPrefixOf (s.drop p))).head?

/-- Last position `p` with `p + sub.length ≤ hi` at which `sub` occurs in
`s`: Python's `s.rfind(sub, 0, hi)` (with `none` for `-1`). -/
def rfindBelow (sub s : List Nat) (hi : Nat) : Option Nat :=
  ((List.range (s.length + 1)).filter
    (fun p => p + sub.length ≤ hi && sub.isPrefixOf (s.drop p))).getLast?

/-- Python's `s.find(sub, lo, hi)`: first occurrence contained in the
window `[lo, hi)` (with `none` for `-1`). -/
def findInRange (sub s : List Nat) (lo hi : Nat) : Option Nat :=
  ((List.range (s.length + 1)).filter
    (fun p => lo ≤ p && p + sub.length ≤ hi && sub.isPrefixOf (s.drop p))).head?

/-- Python's `sub in s` for byte strings. -/
def containsSub (sub s : List Nat) : Bool :=
  (findFrom sub s 0).isSome

/-- All non-overlapping occurrences of `sub` in `s`, scanning left to
right and advancing past each match: the match positions produced by
`re.finditer` on a literal (escaped-metacharacter-free) pattern.  The fuel
argument is an upper bound on the number of matches; for a non-empty `sub`
each match consumes at least one byte, so `s.length + 1` suffices. -/
def findAllAux (sub s : List Nat) : Nat → Nat → List Nat
  | _, 0 => []
  | start, fuel + 1 =>
    match findFrom sub s start with
    | none => []
    | some p => p :: findAllAux sub s (p + sub.length) fuel

/-- All non-overlapping occurrence positions of `sub` in `s`. -/
def findAll (sub s : List Nat) : List Nat :=
  findAllAux sub s 0 (s.length + 1)

/-- Little-endian word value of a byte list. -/
def leWord : List Nat → Nat
  | [] => 0
  | b :: rest => b % 256 + 256 * leWord rest

/-- Fuel-indexed chunking; for a positive width each step consumes at
least one element, so fuel `s.length` is always sufficient. -/
def chunksOfAux (w : Nat) : Nat → List Nat → List (List Nat)
  | 0, _ => []
  | _, [] => []
  | fuel + 1, s => s.take w :: chunksOfAux w fuel (s.drop w)

/-- Split a list into consecutive chunks of length `w` (the element grid
of `numpy.frombuffer`); callers establish `w ∣ s.length` beforehand. -/
def chunksOf (w : Nat) (s : List Nat) : List (List Nat) :=
  chunksOfAux w s.length s

/-! ## Python floats, exactly

The source never computes with floats: it decodes IEEE-754 bit patterns
(`struct.unpack("<f"/"<d", …)`, `numpy.frombuffer`) and then only stores,
compares (`3.0 <= x <= 7.0`, `abs(x) < 1e-12`) or widens them.  Every
finite double is an exact rational, so a Python float is modelled as an
exact rational or a NaN/±infinity marker, and all the source's comparisons
are decidable rational comparisons (any comparison involving NaN is
`False` in Python, matching the `nan` branch below). -/

/-- An exact dyadic rational `num * 2 ^ exp` — every finite IEEE-754
value is one, and all the comparisons the source performs are decidable
on this form by integer arithmetic (ℚ itself does not reduce in the
kernel, so the dyadic form keeps every closed statement evaluable). -/
structure Dyadic where
  num : ℤ
  exp : ℤ
  deriving DecidableEq, Repr

/-- Strip factors of two to reach the canonical (odd-numerator or zero)
form; the fuel bounds the number of strips. -/
def stripTwos : ℤ → ℤ → Nat → Dyadic
  | n, e, 0 => ⟨n, e⟩
  | n, e, fuel + 1 => if n % 2 = 0 then stripTwos (n / 2) (e + 1) fuel else ⟨n, e⟩

/-- The canonical dyadic with value `n * 2 ^ e`. -/
def Dyadic.norm (n e : ℤ) : Dyadic :=
  if n = 0 then ⟨0, 0⟩ else stripTwos n e n.natAbs

/-- `a ≤ b` on dyadic values (comparing numerators after aligning
exponents). -/
def Dyadic.le (a b : Dyadic) : Bool :=
  if a.exp ≤ b.exp then a.num ≤ b.num * 2 ^ (b.exp - a.exp).toNat
  else a.num * 2 ^ (a.exp - b.exp).toNat ≤ b.num

/-- `a < b` on dyadic values. -/
def Dyadic.lt (a b : Dyadic) : Bool :=
  if a.exp ≤ b.exp then a.num < b.num * 2 ^ (b.exp - a.exp).toNat
  else a.num * 2 ^ (a.exp - b.exp).toNat < b.num

/-- A Python float: an exact dyadic rational, NaN, or a signed
infinity. -/
inductive PyNum where
  | ofDy (d : Dyadic)
  | nan
  | inf
  | ninf
  deriving DecidableEq, Repr

/-- Exact value of a little-endian IEEE-754 binary32, as produced by
`struct.unpack("<f", bytes4)` (and by `numpy.frombuffer(..., "<f4")`,
whose widening to double is exact). -/
def f32ToNum (bs : List Nat) : PyNum :=
  if bs.length = 4 then
    let w : Nat := leWord bs
    let s : Nat := w / 2 ^ 31
    let ex : Nat := w / 2 ^ 23 % 2 ^ 8
    let frac : Nat := w % 2 ^ 23
    if ex = 255 then
      if frac = 0 then (if s = 1 then .ninf else .inf) else .nan
    else
      let m : ℤ := if ex = 0 then (frac : ℤ) else (2 ^ 23 + frac : ℕ)
      let e : ℤ := if ex = 0 then -149 else (ex : ℤ) - 150
      .ofDy (Dyadic.norm (if s = 1 then -m else m) e)
  else .nan

/-- Exact value of a little-endian IEEE-754 binary64, as produced by
`struct.unpack("<d", bytes8)` and `numpy.frombuffer(..., "<f8")`. -/
def f64ToNum (bs : List Nat) : PyNum :=
  if bs.length = 8 then
    let w : Nat := leWord bs
    let s : Nat := w / 2 ^ 63
    let ex : Nat := w / 2 ^ 52 % 2 ^ 11
    let frac : Nat := w % 2 ^ 52
    if ex = 2047 then
      if frac = 0 then (if s = 1 then .ninf else .inf) else .nan
    else
      let m : ℤ := if ex = 0 then (frac : ℤ) else (2 ^ 52 + frac : ℕ)
      let e : ℤ := if ex = 0 then -1074 else (ex : ℤ) - 1075
      .ofDy (Dyadic.norm (if s = 1 then -m else m) e)
  else .nan

/-- Signed little-endian 32-bit integer, as produced by
`struct.unpack("<i", bytes4)`. -/
def int32le (bs : List Nat) : ℤ :=
  let w := leWord bs
  if w < 2 ^ 31 then (w : ℤ) else (w : ℤ) - 2 ^ 32

/-- The exact value of the Python float literal `1e-12` (the nearest
binary64 to 10⁻¹², which is *not* exactly 10⁻¹²): the threshold of the
near-zero test `abs(value) < 1e-12` in the crucible-mass fallback. -/
def literal1e12 : Dyadic := ⟨4951760157141521, -92⟩

/-- Python's `abs(value) < 1e-12` (False on NaN and infinities). -/
def isNearZero : PyNum → Bool
  | .ofDy d => Dyadic.lt ⟨|d.num|, d.exp⟩ literal1e12
  | _ => false

/-- Python's `3.0 <= x <= 7.0` (False on NaN and on ±infinity). -/
def inPidRange : PyNum → Bool
  | .ofDy d => Dyadic.le ⟨3, 0⟩ d && Dyadic.le d ⟨7, 0⟩
  | .inf => false
  | .ninf => false
  | .nan => false

/-! ## UTF-8 decoding with `errors="ignore"` and Python `str` helpers

`bytes.decode("utf-8", errors="ignore")` emits the code point of every
valid (shortest-form, non-surrogate) UTF-8 sequence and drops the bytes of
every invalid one.  With the `ignore` handler, skipping the byte ranges
CPython reports is equivalent to skipping one byte and resynchronising:
any byte skipped as part of a reported invalid range is a continuation
byte (0x80–0xBF) or an invalid start byte, neither of which can begin a
valid sequence.  The decoder below uses that one-byte-resynchronisation
form. -/

/-- Is `b` a UTF-8 continuation byte (`0x80–0xBF`)? -/
def isCont (b : Nat) : Bool := 0x80 ≤ b && b ≤ 0xBF

/-- Fuel-indexed UTF-8 decoder with the `ignore` error handler; each step
consumes at least one byte, so fuel `l.length` is always sufficient. -/
def utf8Aux : Nat → List Nat → List Nat
  | 0, _ => []
  | _ + 1, [] => []
  | fuel + 1, b :: rest =>
    if b < 0x80 then b :: utf8Aux fuel rest
    else if 0xC2 ≤ b && b ≤ 0xDF then
      match rest with
      | c1 :: rest2 =>
        if isCont c1 then ((b - 0xC0) * 64 + (c1 - 0x80)) :: utf8Aux fuel rest2
        else utf8Aux fuel rest
      | [] => []
    else if 0xE0 ≤ b && b ≤ 0xEF then
      match rest with
      | c1 :: c2 :: rest3 =>
        let okC1 : Bool :=
          if b = 0xE0 then 0xA0 ≤ c1 && c1 ≤ 0xBF
          else if b = 0xED then 0x80 ≤ c1 && c1 ≤ 0x9F
          else isCont c1
        if okC1 && isCont c2 then
          ((b - 0xE0) * 4096 + (c1 - 0x80) * 64 + (c2 - 0x80)) :: utf8Aux fuel rest3
        else utf8Aux fuel rest
      | _ => utf8Aux fuel rest
    else if 0xF0 ≤ b && b ≤ 0xF4 then
      match rest with
      | c1 :: c2 :: c3 :: rest4 =>
        let okC1 : Bool :=
          if b = 0xF0 then 0x90 ≤ c1 && c1 ≤ 0xBF
          else if b = 0xF4 then 0x80 ≤ c1 && c1 ≤ 0x8F
          else isCont c1
        if okC1 && isCont c2 && isCont c3 then
          ((b - 0xF0) * 262144 + (c1 - 0x80) * 4096 + (c2 - 0x80) * 64 + (c3 - 0x80))
            :: utf8Aux fuel rest4
        else utf8Aux fuel rest
      | _ => utf8Aux fuel rest
    else utf8Aux fuel rest

/-- `bytes.decode("utf-8", errors="ignore")`, as code points. -/
def utf8DecodeIgnore (l : List Nat) : List Nat := utf8Aux l.length l

/-- The code points Python's `str.isspace` (and hence `str.strip`)
recognises as whitespace. -/
def pyIsSpace (c : Nat) : Bool :=
  c ∈ [0x09, 0x0A, 0x0B, 0x0C, 0x0D, 0x1C, 0x1D, 0x1E, 0x1F, 0x20,
       0x85, 0xA0, 0x1680,
       0x2000, 0x2001, 0x2002, 0x2003, 0x2004, 0x2005, 0x2006, 0x2007,
       0x2008, 0x2009, 0x200A, 0x2028, 0x2029, 0x202F, 0x205F, 0x3000]

/-- Python's `str.strip()`: drop leading and trailing whitespace. -/
def pyStrip (l : List Nat) : List Nat :=
  ((l.dropWhile pyIsSpace).reverse.dropWhile pyIsSpace).reverse

/-- Python's `str.replace("\x00", "")`: remove every NUL code point. -/
def removeNuls (l : List Nat) : List Nat := l.filter (· ≠ 0)

/-- Code points of a Lean string (used to write down concrete Python
string values such as gas names). -/
def strCodes (s : String) : List Nat := s.data.map (·.toNat)

/-! ## Format constants

`BinaryMarkers`, the `DataType` tags and `PatternConfig` live in the
repository's `constants.py`, which is not among the provided sources; per
the spec they are fixed byte sequences / one-byte tags / byte-pair tables.
Everything below is parametric in them; `modelMarkers` and the tag values
are concrete stand-ins used only to instantiate closed theorems. -/

/-- The structural delimiter byte sequences of the format
(`constants.BinaryMarkers`). -/
structure BinaryMarkers where
  TABLE_SEPARATOR : List Nat
  START_DATA : List Nat
  END_DATA : List Nat
  TYPE_PREFIX : List Nat
  TYPE_SEPARATOR : List Nat
  END_FIELD : List Nat
  deriving Repr

/-- Modelled from the spec: `constants.BinaryMarkers` is missing from the
sources ("fixed byte sequences used as structural delimiters … invariant
across all files"); these distinct, non-empty stand-in values (avoiding
the header/data tag bytes 0x17/0x75 and the scan signature bytes
0x03/0x80/0x01 that appear literally in the sources) instantiate
witnesses and counterexamples. -/
def modelMarkers : BinaryMarkers :=
  { TABLE_SEPARATOR := [0xFB, 0xFB]
    START_DATA := [0xD1, 0xD2]
    END_DATA := [0xD3, 0xD4]
    TYPE_PREFIX := [0xA1, 0xA2]
    TYPE_SEPARATOR := [0xB1, 0xB2]
    END_FIELD := [0xC1, 0xC2] }

/-- `DataType.FLOAT64.value`: attested as `b"\x05"` by the
`Float64Handler` docstring and the integration-test fixtures. -/
def FLOAT64_TAG : List Nat := [0x05]

/-- `DataType.FLOAT32.value`: attested as `b"\x04"` by the
`Float32Handler` docstring. -/
def FLOAT32_TAG : List Nat := [0x04]

/-- `DataType.STRING.value`: attested as `b"\x1f"` by the
integration-test fixtures. -/
def STRING_TAG : List Nat := [0x1F]

/-- Modelled from the spec: `DataType.INT32.value` is a one-byte tag
distinct from the float/string tags; its concrete value does not appear
in the provided sources, so a distinct stand-in is used. -/
def INT32_TAG : List Nat := [0x03]

/-- `constants.PatternConfig` (modelled from the spec: the column map from
two-hex-digit identifiers to semantic names, and the marker-pair /
marker tables driving metadata, temperature-program and
calibration-constant extraction; the concrete default tables are not in
the provided sources, so everything stays parametric in this value). -/
structure PatternConfig where
  column_map : List (String × String)
  metadata_patterns : List (String × (List Nat × List Nat))
  temp_prog_patterns : List (String × List Nat)
  cal_constants_patterns : List (String × List Nat)
  temp_prog_type_separator : List Nat
  temp_prog_field_separator : List Nat
  temp_prog_value_prefix : List Nat
  deriving Repr

/-! ## `BinaryParser.parse_value` (pyngb/binary/parser.py)

Returns a Python object; struct-unpacking failures (wrong length) are
swallowed into `None`.  The `String` branch drops the 4-byte length
prefix, decodes UTF-8 with `errors="ignore"`, strips whitespace, and then
removes **all** NUL characters (`.strip().replace("\x00", "")`, in that
order). -/

/-- A value returned by `BinaryParser.parse_value` (a Python `int`,
`float`, `str` or raw `bytes`). -/
inductive PVal where
  | int (i : ℤ)
  | float (n : PyNum)
  | str (cs : List Nat)
  | bytes (bs : List Nat)
  deriving DecidableEq, Repr

/-- `BinaryParser.parse_value(data_type, value)`; `none` models the
`return None` taken when `struct.unpack` fails on a wrong-length buffer. -/
def parse_value (data_type value : List Nat) : Option PVal :=
  if data_type = INT32_TAG then
    if value.length = 4 then some (.int (int32le value)) else none
  else if data_type = FLOAT32_TAG then
    if value.length = 4 then some (.float (f32ToNum value)) else none
  else if data_type = FLOAT64_TAG then
    if value.length = 8 then some (.float (f64ToNum value)) else none
  else if data_type = STRING_TAG then
    some (.str (removeNuls (pyStrip (utf8DecodeIgnore (value.drop 4)))))
  else
    some (.bytes value)

/-- Python's `isinstance(value, (int, float))` followed by
`float(value)`, on a `parse_value` result. -/
def pyFloatOf : PVal → Option PyNum
  | .int i => some (.ofDy (Dyadic.norm i 0))
  | .float n => some n
  | _ => none

/-! ## Data type handlers and registry (pynetzsch/binary/handlers.py) -/

/-- Exceptions surfaced by the embedded code paths. -/
inductive PyErr where
  /-- `NGBDataTypeError("No handler found for data type: …")`, carrying
  the raw tag whose hex rendering the message names. -/
  | ngbDataTypeError (tag : List Nat)
  /-- `ValueError` from `numpy.frombuffer` on a buffer whose length is
  not a multiple of the element size. -/
  | valueError
  /-- `IndexError` (e.g. `""[0]` in the pynetzsch temperature-program
  step-number computation). -/
  | indexError
  /-- `NGBStreamNotFoundError`: required stream missing from archive. -/
  | streamNotFound
  deriving DecidableEq, Repr

/-- A registered data-type handler: `can_handle(data_type)` plus
`parse_data(data)` (which may raise, e.g. `numpy.frombuffer`'s
`ValueError`). -/
structure DataTypeHandler where
  canHandle : List Nat → Bool
  parseData : List Nat → Except PyErr (List PyNum)

/-- `Float64Handler`: 8-byte little-endian doubles via
`numpy.frombuffer(data, dtype="<f8")`. -/
def float64Handler : DataTypeHandler :=
  { canHandle := fun dt => dt = FLOAT64_TAG
    parseData := fun d =>
      if d.length % 8 = 0 then .ok ((chunksOf 8 d).map f64ToNum) else .error .valueError }

/-- `Float32Handler`: 4-byte little-endian floats via
`numpy.frombuffer(data, dtype="<f4")`, widened (exactly) to double. -/
def float32Handler : DataTypeHandler :=
  { canHandle := fun dt => dt = FLOAT32_TAG
    parseData := fun d =>
      if d.length % 4 = 0 then .ok ((chunksOf 4 d).map f32ToNum) else .error .valueError }

/-- The handler list of a fresh `DataTypeRegistry()`
(`_register_default_handlers`: Float64 first, then Float32). -/
def defaultHandlers : List DataTypeHandler := [float64Handler, float32Handler]

/-- `DataTypeRegistry.parse_data`: first registered handler whose
`can_handle` accepts the tag wins; no handler ⇒
`NGBDataTypeError` naming the tag. -/
def registryParseData (handlers : List DataTypeHandler)
    (data_type data : List Nat) : Except PyErr (List PyNum) :=
  match handlers with
  | [] => .error (.ngbDataTypeError data_type)
  | h :: rest =>
    if h.canHandle data_type then h.parseData data
    else registryParseData rest data_type data

/-! ## Table splitting

`BinaryParser.split_tables` (pyngb/binary/parser.py): every separator
occurrence's start minus 2 becomes a boundary; tables are `data[i:j]` over
consecutive boundaries, the last extending to the end; **no separator ⇒
the whole input as a single table**.  The stream processors
(pynetzsch/extractors/streams.py) inline the same construction but
*without* the no-separator fallback. -/

/-- Pair each boundary with its successor (`tee`/`zip_longest(start, end)`
in the source): the last boundary is paired with `none`. -/
def pairWithNext : List Int → List (Int × Option Int)
  | [] => []
  | [i] => [(i, none)]
  | i :: j :: rest => (i, some j) :: pairWithNext (j :: rest)

/-- The boundary list `[m.start() - 2 for m in finditer(sep, data)]`. -/
def sepIndices (sep data : List Nat) : List Int :=
  (findAll sep data).map (fun (p : Nat) => (p : Int) - 2)

/-- One table per boundary pair. -/
def tablesOfIndices (data : List Nat) (indices : List Int) : List (List Nat) :=
  (pairWithNext indices).map fun ij =>
    match ij with
    | (i, some j) => pySlice data i j
    | (i, none) => pySliceFrom data i

/-- `BinaryParser.split_tables(data)`. -/
def split_tables (sep data : List Nat) : List (List Nat) :=
  let indices := sepIndices sep data
  if indices = [] then [data] else tablesOfIndices data indices

/-- The inline table split at the top of `process_stream_2` and
`process_stream_3` — identical construction, but with no `if not indices`
fallback. -/
def inlineSplit (sep data : List Nat) : List (List Nat) :=
  tablesOfIndices data (sepIndices sep data)

/-! ## Columnar tables and the stream processors
(pynetzsch/extractors/streams.py)

A `polars.DataFrame` of float columns is an ordered association list of
named, equal-length columns.  `with_columns(pl.Series(name, values))`
replaces the column of that name (or appends a new one); on a non-empty
frame a length mismatch raises `ShapeError`, which both stream processors
catch and swallow, leaving the frame unchanged.  `pl.Series(name=None, …)`
gets the empty name. -/

/-- A columnar measurement table: named float columns. -/
abbrev DataFrame := List (String × List PyNum)

/-- Number of rows (length of the first column; columns are uniform). -/
def dfHeight : DataFrame → Nat
  | [] => 0
  | (_, col) :: _ => col.length

/-- Replace the column named `name`, or append it. -/
def dfSet (df : DataFrame) (name : String) (vals : List PyNum) : DataFrame :=
  if (df.lookup name).isSome then
    df.map fun nc => if nc.1 = name then (nc.1, vals) else nc
  else df ++ [(name, vals)]

/-- `try: df = df.with_columns(pl.Series(name, vals)) except ShapeError:
pass` — the guarded column commit both stream processors use. -/
def withColumnsCaught (df : DataFrame) (name : String) (vals : List PyNum) :
    DataFrame :=
  if df.isEmpty then [(name, vals)]
  else if vals.length = dfHeight df then dfSet df name vals
  else df

/-- Lowercase hex digit. -/
def hexDigitChar (n : Nat) : Char :=
  if n < 10 then Char.ofNat (48 + n) else Char.ofNat (87 + n)

/-- Python's `bytes.hex()`. -/
def bytesHex (l : List Nat) : String :=
  ⟨l.flatMap fun b => [hexDigitChar (b % 256 / 16), hexDigitChar (b % 16)]⟩

/-- Loop state of a stream processor: the output frame, the buffered
array, and the pending column title. -/
abbrev StreamState := DataFrame × List PyNum × Option String

/-- The data-table branch shared verbatim by `process_stream_2` and
`process_stream_3`: locate `START_DATA`, skip the 6-byte offset, cut at
`END_DATA`, read the type tag one byte before the marker
(`table[start_data - 7 : start_data - 6]`), and decode through the
registry.  Returns `ok none` for the `continue` paths (missing markers,
`NGBDataTypeError` caught), `ok (some vals)` for decoded data, and
propagates any other exception (`numpy.frombuffer`'s `ValueError` is not
caught in the source). -/
def streamDataScan (mk : BinaryMarkers) (t : List Nat) :
    Except PyErr (Option (List PyNum)) :=
  match findFrom mk.START_DATA t 0 with
  | none => .ok none
  | some f =>
    let start_data := f + 6
    let data := t.drop start_data
    match findFrom mk.END_DATA data 0 with
    | none => .ok none
    | some e =>
      let payload := data.take e
      let dtype := pySlice t ((start_data : Int) - 7) ((start_data : Int) - 6)
      match registryParseData defaultHandlers dtype payload with
      | .ok vals => .ok (some vals)
      | .error (.ngbDataTypeError _) => .ok none
      | .error err => .error err

/-- One loop iteration of `process_stream_2`: on a header table (second
byte `0x17`) the buffered array — when longer than one element — is
committed under the mapped title of *this* table's first byte, and the
buffer is cleared; on a data table (second byte `0x75`) the decoded bulk
array extends the buffer. -/
def stream2Table (cmap : List (String × String)) (mk : BinaryMarkers)
    (st : StreamState) (t : List Nat) : Except PyErr StreamState :=
  let (df, output, title) := st
  let st1 : StreamState :=
    if pySlice t 1 2 = [0x17] then
      let hx := bytesHex (pySlice t 0 1)
      let ttl := (cmap.lookup hx).getD hx
      let df1 := if output.length > 1 then withColumnsCaught df ttl output else df
      (df1, [], some ttl)
    else (df, output, title)
  if pySlice t 1 2 = [0x75] then
    match streamDataScan mk t with
    | .ok none => .ok st1
    | .ok (some vals) => .ok (st1.1, st1.2.1 ++ vals, st1.2.2)
    | .error err => .error err
  else .ok st1

/-- `DataStreamProcessor.process_stream_2(stream_data)`: inline split,
then the stream-2 loop; the final buffered array is *not* committed. -/
def process_stream_2 (cmap : List (String × String)) (mk : BinaryMarkers)
    (stream_data : List Nat) : Except PyErr DataFrame := do
  let tables := inlineSplit mk.TABLE_SEPARATOR stream_data
  let st ← tables.foldlM (stream2Table cmap mk) (([] : DataFrame), [], none)
  pure st.1

/-- One loop iteration of `process_stream_3`: header detection inspects
bytes 22–25 for `80 22 2b` (no commit, buffer cleared); each data table's
decoded array extends the buffer, which is immediately committed under
the pending title (its absence giving the empty name). -/
def stream3Table (cmap : List (String × String)) (mk : BinaryMarkers)
    (st : StreamState) (t : List Nat) : Except PyErr StreamState :=
  let (df, output, title) := st
  let st1 : StreamState :=
    if pySlice t 22 25 = [0x80, 0x22, 0x2B] then
      let hx := bytesHex (pySlice t 0 1)
      let ttl := (cmap.lookup hx).getD hx
      (df, [], some ttl)
    else (df, output, title)
  if pySlice t 1 2 = [0x75] then
    match streamDataScan mk t with
    | .ok none => .ok st1
    | .ok (some vals) =>
      let out1 := st1.2.1 ++ vals
      let df1 := withColumnsCaught st1.1 (st1.2.2.getD "") out1
      .ok (df1, out1, st1.2.2)
    | .error err => .error err
  else .ok st1

/-- `DataStreamProcessor.process_stream_3(stream_data, existing_df)`. -/
def process_stream_3 (cmap : List (String × String)) (mk : BinaryMarkers)
    (stream_data : List Nat) (existing : DataFrame) : Except PyErr DataFrame := do
  let tables := inlineSplit mk.TABLE_SEPARATOR stream_data
  let st ← tables.foldlM (stream3Table cmap mk) (existing, [], none)
  pure st.1

/-! ## The compiled metadata field pattern

The extractors compile, per logical field, the `re.DOTALL` bytes regex
`CATEGORY .+? FIELD .+? TYPE_PREFIX (.+?) TYPE_SEPARATOR (.+?) END_FIELD`
(the calibration-constant / pynetzsch temperature-program variant drops
the leading `CATEGORY .+?` stage).  The marker byte strings are spliced
into the pattern unescaped; as in the spec they are treated as fixed
literal sequences here.

For a pattern of this shape, Python's leftmost, lazy-preferring match is
computed by *first-occurrence chaining*: take the first occurrence of
`CATEGORY`, then the first occurrence of `FIELD` at least one byte later,
and so on; if the chain completes it is exactly the regex match (each
lazy `.+?` takes the minimum width, in priority order), and if any link
fails there is no match at all starting anywhere at or after the search
start.  The latter holds because "the remainder of the pattern matches
starting from position `q`" is downward closed in `q` (any witness
occurrences for a later start also serve an earlier one, the one-byte
minimum gaps only getting slacker), so if the chain fails from the
earliest viable position it fails from every later one. -/

/-- One regex match of a compiled field pattern: the match span and the
two captured groups (the type-tag bytes and the value bytes). -/
structure FieldMatch where
  mstart : Nat
  mend : Nat
  dtype : List Nat
  value : List Nat
  deriving DecidableEq, Repr

/-- `pattern.search(s, start)` for the two-marker metadata pattern
(`CATEGORY .+? FIELD .+? TYPE_PREFIX (.+?) TYPE_SEPARATOR (.+?)
END_FIELD`), by first-occurrence chaining. -/
def metaSearch (mk : BinaryMarkers) (cat fld s : List Nat) (start : Nat) :
    Option FieldMatch := do
  let p ← findFrom cat s start
  let fp ← findFrom fld s (p + cat.length + 1)
  let tp ← findFrom mk.TYPE_PREFIX s (fp + fld.length + 1)
  let ts ← findFrom mk.TYPE_SEPARATOR s (tp + mk.TYPE_PREFIX.length + 1)
  let ef ← findFrom mk.END_FIELD s (ts + mk.TYPE_SEPARATOR.length + 1)
  pure ⟨p, ef + mk.END_FIELD.length,
        sliceN s (tp + mk.TYPE_PREFIX.length) ts,
        sliceN s (ts + mk.TYPE_SEPARATOR.length) ef⟩

/-- `pattern.search(s, start)` for the single-marker variant
(`FIELD .+? TYPE_PREFIX (.+?) TYPE_SEPARATOR (.+?) END_FIELD`) used for
calibration constants and the pynetzsch temperature program. -/
def calSearch (mk : BinaryMarkers) (fld s : List Nat) (start : Nat) :
    Option FieldMatch := do
  let p ← findFrom fld s start
  let tp ← findFrom mk.TYPE_PREFIX s (p + fld.length + 1)
  let ts ← findFrom mk.TYPE_SEPARATOR s (tp + mk.TYPE_PREFIX.length + 1)
  let ef ← findFrom mk.END_FIELD s (ts + mk.TYPE_SEPARATOR.length + 1)
  pure ⟨p, ef + mk.END_FIELD.length,
        sliceN s (tp + mk.TYPE_PREFIX.length) ts,
        sliceN s (ts + mk.TYPE_SEPARATOR.length) ef⟩

/-- Iterated non-overlapping matching (`finditer` / `findall`): each
subsequent search resumes at the previous match's end.  Every match ends
at least four bytes past its search start (four mandatory one-byte-minimum
gaps), so fuel `s.length + 1` is always sufficient. -/
def finditerAux (next : Nat → Option FieldMatch) : Nat → Nat → List FieldMatch
  | _, 0 => []
  | start, fuel + 1 =>
    match next start with
    | none => []
    | some m => m :: finditerAux next m.mend fuel

/-- `pattern.finditer(s)` (and, through `.dtype`/`.value`, `findall`) for
a compiled two-marker metadata pattern. -/
def metaFinditer (mk : BinaryMarkers) (cat fld s : List Nat) : List FieldMatch :=
  finditerAux (metaSearch mk cat fld s) 0 (s.length + 1)

/-! ## The pyngb temperature-program pattern

pyngb compiles `re.escape(b"\x03\x80\x01") + re.escape(field_code) +
re.escape(type_separator) + (.) + re.escape(field_separator) +
re.escape(value_prefix) + (.{4})` — a fully escaped, fixed-width pattern:
a match is simply the first position where the literal prefix occurs,
followed by one captured tag byte, the literal middle, and four captured
value bytes. -/

/-- The temperature-program type prefix `b"\x03\x80\x01"` (a literal in
pyngb/extractors/metadata.py). -/
def TEMP_PROG_TYPE_PREFIX : List Nat := [0x03, 0x80, 0x01]

/-- `pattern.search(s, start)` for a compiled pyngb temperature-program
pattern with field code `code`. -/
def tpSearch (cfg : PatternConfig) (code s : List Nat) (start : Nat) :
    Option FieldMatch :=
  let A := TEMP_PROG_TYPE_PREFIX ++ code ++ cfg.temp_prog_type_separator
  let B := cfg.temp_prog_field_separator ++ cfg.temp_prog_value_prefix
  (((List.range (s.length + 1)).filter fun p =>
      start ≤ p && A.isPrefixOf (s.drop p) &&
      p + A.length + 1 + B.length + 4 ≤ s.length &&
      B.isPrefixOf (s.drop (p + A.length + 1))).head?).map fun p =>
    ⟨p, p + A.length + 1 + B.length + 4,
     [s.getD (p + A.length) 0],
     sliceN s (p + A.length + 1 + B.length) (p + A.length + 1 + B.length + 4)⟩

/-- `pattern.findall(s)` for a pyngb temperature-program pattern. -/
def tpFindall (cfg : PatternConfig) (code s : List Nat) : List FieldMatch :=
  finditerAux (tpSearch cfg code s) 0 (s.length + 1)

/-! ## The metadata map (`FileMetadata`)

A Python dict: an insertion-ordered association list with unique keys.
`mput` is dict assignment (overwrite in place, or append), `mputIfAbsent`
is the pervasive `if key not in metadata: metadata[key] = …` idiom. -/

/-- A metadata value: a Python scalar or a nested dict (temperature
program stages, calibration constants). -/
inductive MValue where
  | str (cs : List Nat)
  | int (i : ℤ)
  | num (n : PyNum)
  | bytes (bs : List Nat)
  | dict (entries : List (String × MValue))
  deriving Repr

/-- Inject a `parse_value` result into a metadata value. -/
def MValue.ofP : PVal → MValue
  | .int i => .int i
  | .float n => .num n
  | .str cs => .str cs
  | .bytes bs => .bytes bs

/-- `FileMetadata` (also used for its nested dicts). -/
abbrev Metadata := List (String × MValue)

/-- Dict assignment `d[k] = v`: overwrite in place, or append. -/
def mput (md : Metadata) (k : String) (v : MValue) : Metadata :=
  if (md.lookup k).isSome then
    md.map fun kv => if kv.1 = k then (kv.1, v) else kv
  else md ++ [(k, v)]

/-- `if k not in d: d[k] = v`. -/
def mputIfAbsent (md : Metadata) (k : String) (v : MValue) : Metadata :=
  if (md.lookup k).isSome then md else md ++ [(k, v)]

/-- The entries of `d.setdefault(k, {})`, viewed as a dict (`[]` unless
the stored value is a dict, which the source never lets happen). -/
def dictEntriesAt (md : Metadata) (k : String) : Metadata :=
  match md.lookup k with
  | some (.dict d) => d
  | _ => []

/-- `d.setdefault(k, {})`'s effect on `d` itself. -/
def msetdefaultDict (md : Metadata) (k : String) : Metadata :=
  if (md.lookup k).isSome then md else md ++ [(k, .dict [])]

/-! ## `MetadataExtractor.extract_metadata` (pyngb/extractors/metadata.py) -/

/-- Modelled from the spec: the ISO-8601 UTC rendering of a Unix
timestamp (`datetime.fromtimestamp(value, tz=timezone.utc).isoformat()`).
The calendar arithmetic is outside the decoding core and no claim
depends on the rendered text, so the timestamp's decimal digits stand in
for it (keeping the rendering injective in the timestamp). -/
def isoOfTimestamp (i : ℤ) : List Nat := strCodes (toString i)

/-- The `date_performed` special case: an integer value is re-rendered as
an ISO timestamp string. -/
def dateTransform : PVal → PVal
  | .int i => .str (isoOfTimestamp i)
  | v => v

/-- One `(data_type, value)` match of the per-table scalar-field loop:
decode, apply the `date_performed` transform, then divert numeric
`crucible_mass` matches (with their in-table byte offsets) to the
disambiguation list, store numeric `sample_mass` only if absent, and
store anything else first-seen-wins. -/
def applyScalarMatch (fname : String) (st : Metadata × List (Nat × PyNum))
    (m : FieldMatch) : Metadata × List (Nat × PyNum) :=
  match parse_value m.dtype m.value with
  | none => st
  | some v0 =>
    let v := if fname = "date_performed" then dateTransform v0 else v0
    if fname = "crucible_mass" then
      match pyFloatOf v with
      | some n => (st.1, st.2 ++ [(m.mstart, n)])
      | none => (mputIfAbsent st.1 fname (MValue.ofP v), st.2)
    else if fname = "sample_mass" then
      match pyFloatOf v with
      | some n => (mputIfAbsent st.1 "sample_mass" (.num n), st.2)
      | none => (mputIfAbsent st.1 fname (MValue.ofP v), st.2)
    else (mputIfAbsent st.1 fname (MValue.ofP v), st.2)

/-- The scalar-field loop over one table: every configured field's
`findall` matches in order.  (The source recomputes each match's start
offset by iterating `pattern.search` from the previous match's end — the
same non-overlapping iteration `finditer` performs — so the offset is the
match's own `m.start()`.) -/
def scalarPassTable (cfg : PatternConfig) (mk : BinaryMarkers)
    (st : Metadata × List (Nat × PyNum)) (table : List Nat) :
    Metadata × List (Nat × PyNum) :=
  cfg.metadata_patterns.foldl
    (fun st' fp =>
      (metaFinditer mk fp.2.1 fp.2.2 table).foldl (applyScalarMatch fp.1) st')
    st

/-- `_extract_calibration_constants(table, metadata)` (pyngb): guarded by
the category marker `f5 01`; first match per configured field, assigned
(overwriting) into the nested `calibration_constants` dict. -/
def calPass (cfg : PatternConfig) (mk : BinaryMarkers) (md : Metadata)
    (table : List Nat) : Metadata :=
  if containsSub [0xF5, 0x01] table then
    let md0 := msetdefaultDict md "calibration_constants"
    let d := dictEntriesAt md "calibration_constants"
    let d1 := cfg.cal_constants_patterns.foldl
      (fun d' fp =>
        match calSearch mk fp.2 table 0 with
        | none => d'
        | some m =>
          match parse_value m.dtype m.value with
          | none => d'
          | some v => mput d' fp.1 (MValue.ofP v)) d
    mput md0 "calibration_constants" (.dict d1)
  else md

/-- `_extract_temperature_program(combined, metadata)` (pyngb): the
`temperature_program` key is inserted unconditionally; each configured
field's fixed-width matches are collected over the combined bytes, and
stage `i` aggregates every field's `i`-th match, with the
temperature-program-specific tag `0x0c` special-cased as a 4-byte
little-endian float. -/
def tempProgPass (cfg : PatternConfig) (md : Metadata) (combined : List Nat) :
    Metadata :=
  let md0 := msetdefaultDict md "temperature_program"
  let tp0 := dictEntriesAt md "temperature_program"
  let fms := cfg.temp_prog_patterns.filterMap fun fp =>
    let found := tpFindall cfg fp.2 combined
    if found = [] then none else some (fp.1, found)
  if fms = [] then md0
  else
    let maxLen := fms.foldl (fun a x => max a x.2.length) 0
    let tpFinal := (List.range maxLen).foldl
      (fun d i =>
        let stageKey := "stage_" ++ toString i
        let d0 := msetdefaultDict d stageKey
        let st0 := dictEntriesAt d stageKey
        let st1 := fms.foldl
          (fun sd fm =>
            match fm.2.get? i with
            | none => sd
            | some m =>
              let val? : Option MValue :=
                if m.dtype = [0x0C] ∧ m.value.length = 4 then
                  some (.num (f32ToNum m.value))
                else (parse_value m.dtype m.value).map MValue.ofP
              match val? with
              | none => sd
              | some v => mput sd fm.1 v) st0
        mput d0 stageKey (.dict st1)) tp0
    mput md0 "temperature_program" (.dict tpFinal)

/-! ## `_extract_mfc_metadata` (pyngb/extractors/metadata.py) -/

/-- UTF-16LE bytes of an ASCII/BMP string (`str.encode("utf-16le")`). -/
def utf16le (s : String) : List Nat :=
  s.data.flatMap fun c => [c.toNat % 256, c.toNat / 256]

/-- `field_name.lower().replace(" ", "_")` (the names are ASCII; the
two passes fuse into one character map since `' '.toLower = ' '`). -/
def mfcFieldKey (s : String) : String :=
  ⟨s.data.map fun c => if c = ' ' then '_' else c.toLower⟩

/-- Step 1: for each of the three known channel names in their fixed scan
order, the first table containing its UTF-16LE bytes. -/
def fieldDefinitions (tables : List (List Nat)) : List (Nat × String) :=
  ["Purge 1", "Purge 2", "Protective"].filterMap fun nm =>
    (tables.enum.find? fun it => containsSub (utf16le nm) it.2).map
      fun it => (it.1, mfcFieldKey nm)

/-- Does a table carry the MFC range signature `03 80 01` followed by the
two-byte little-endian code `0x1048`? -/
def hasMfcSig (t : List Nat) : Bool :=
  (List.range (t.length - 4)).any fun j =>
    sliceN t j (j + 3) = [0x03, 0x80, 0x01] &&
    leWord (sliceN t (j + 3) (j + 5)) = 0x1048

/-- `struct.pack("<f", 250.0)`. -/
def bytes250 : List Nat := [0x00, 0x00, 0x7A, 0x43]

/-- `struct.pack("<f", 252.5)`. -/
def bytes252_5 : List Nat := [0x00, 0x80, 0x7C, 0x43]

/-- Step 2: signature-bearing tables in order, each classified by the
first of the two calibrated range float encodings it contains (a table
with the signature but neither encoding contributes nothing). -/
def rangeTables (tables : List (List Nat)) : List (Nat × Dyadic) :=
  tables.enum.filterMap fun it =>
    if hasMfcSig it.2 then
      if containsSub bytes250 it.2 then some (it.1, Dyadic.norm 250 0)
      else if containsSub bytes252_5 it.2 then some (it.1, Dyadic.norm 505 (-1))
      else none
    else none

/-- The known gas names, in their fixed scan order. -/
def gasNames : List String :=
  ["NITROGEN", "OXYGEN", "ARGON", "HELIUM", "CARBON_DIOXIDE"]

/-- Step 3: the gas-context map — tables longer than 20 bytes whose
second byte is `0x1B`, keyed to the first known gas name they contain. -/
def gasContextMap (tables : List (List Nat)) : List (Nat × String) :=
  tables.enum.filterMap fun it =>
    if it.2.length > 20 && it.2.getD 1 0 = 0x1B then
      (gasNames.find? fun g => containsSub (utf16le g) it.2).map fun g => (it.1, g)
    else none

/-- The nearest gas-context entry strictly before `rtable`, scanning
backward. -/
def gasLookback (gmap : List (Nat × String)) (rtable : Nat) : Option String :=
  (List.range rtable).reverse.findSome? fun ct => gmap.lookup ct

/-- Step 4: ordinal pairing — the `n`-th discovered channel name takes the
`n`-th discovered range entry (first three only), and both the gas and
range fields are produced **only when** a preceding gas-context entry is
found for that range table. -/
def mfcFields (tables : List (List Nat)) : List (String × MValue) :=
  let fds := fieldDefinitions tables
  let gmap := gasContextMap tables
  ((rangeTables tables).take 3).enum.foldl
    (fun acc fr =>
      match fds.get? fr.1 with
      | none => acc
      | some fd =>
        match gasLookback gmap fr.2.1 with
        | none => acc
        | some g =>
          acc ++ [(fd.2 ++ "_mfc_gas", .str (strCodes g)),
                  (fd.2 ++ "_mfc_range", .num (.ofDy fr.2.2))]) []

/-- `_extract_mfc_metadata(tables, metadata)`: `metadata.update(mfc_fields)`. -/
def mfcPass (tables : List (List Nat)) (md : Metadata) : Metadata :=
  (mfcFields tables).foldl (fun m kv => mput m kv.1 kv.2) md

/-! ## `_extract_control_parameters` (pyngb/extractors/metadata.py) -/

/-- The PID parameters found in one table (a dict with keys among
`xp`/`tn`/`tv`; later matches overwrite earlier ones). -/
structure PidParams where
  xp : Option PyNum := none
  tn : Option PyNum := none
  tv : Option PyNum := none
  deriving DecidableEq, Repr

/-- The parameter named by a two-byte signature code, if any
(`0x0fe7`/`0x0fe8`/`0x0fe9`). -/
def pidSigName (sig : Nat) : Option (Fin 3) :=
  if sig = 0x0FE7 then some 0 else if sig = 0x0FE8 then some 1
  else if sig = 0x0FE9 then some 2 else none

/-- Record a parameter value. -/
def PidParams.set (p : PidParams) : Fin 3 → PyNum → PidParams
  | 0, v => { p with xp := some v }
  | 1, v => { p with tn := some v }
  | 2, v => { p with tv := some v }

/-- The forward value scan: from signature position `i`, the first offset
in `[5, min(200, len - i))` whose in-bounds 4-byte window decodes to a
float in the plausible range `[3.0, 7.0]`. -/
def findPidFloat (t : List Nat) (i : Nat) : Option PyNum :=
  ((List.range' 5 (min 200 (t.length - i) - 5)).filter fun off =>
      i + off + 4 ≤ t.length &&
      inPidRange (f32ToNum (sliceN t (i + off) (i + off + 4)))).head?.map
    fun off => f32ToNum (sliceN t (i + off) (i + off + 4))

/-- Scan one table for the `03 80 01` + parameter-code signatures,
recording for each hit the first plausible float that follows. -/
def controlScanTable (t : List Nat) : PidParams :=
  (List.range (t.length - 4)).foldl
    (fun acc i =>
      if sliceN t i (i + 3) = [0x03, 0x80, 0x01] then
        match pidSigName (leWord (sliceN t (i + 3) (i + 5))) with
        | none => acc
        | some param =>
          match findPidFloat t i with
          | some v => acc.set param v
          | none => acc
      else acc)
    {}

/-- The control tables: non-empty tables whose scan found all three
parameters, with their table numbers, in order. -/
def controlTables (tables : List (List Nat)) : List (Nat × PidParams) :=
  tables.enum.filterMap fun it =>
    if it.2.length = 0 then none
    else
      let p := controlScanTable it.2
      if p.xp.isSome && p.tn.isSome && p.tv.isSome then some (it.1, p) else none

/-- Write one controller's three parameters under a key prefix. -/
def pidWrite (md : Metadata) (pre : String) (p : PidParams) : Metadata :=
  let md1 := match p.xp with | some v => mput md (pre ++ "xp") (.num v) | none => md
  let md2 := match p.tn with | some v => mput md1 (pre ++ "tn") (.num v) | none => md1
  match p.tv with | some v => mput md2 (pre ++ "tv") (.num v) | none => md2

/-- `_extract_control_parameters(tables, metadata)`: parameters are
recorded **only** when at least two control tables exist — the first is
the furnace controller, the second the sample controller. -/
def controlPass (tables : List (List Nat)) (md : Metadata) : Metadata :=
  match controlTables tables with
  | ct1 :: ct2 :: _ => pidWrite (pidWrite md "furnace_" ct1.2) "sample_" ct2.2
  | _ => md

/-! ## Crucible-mass structural disambiguation
(pyngb/extractors/metadata.py, `extract_metadata` tail) -/

/-- The sample- and reference-crucible signature fragments
(`SAMPLE_CRUCIBLE_SIG_FRAGMENT` / `REF_CRUCIBLE_SIG_FRAGMENT`, imported
from the missing `constants.py`; per the spec, fixed byte fragments). -/
structure SigFragments where
  sample : List Nat
  ref : List Nat
  deriving Repr

/-- Modelled from the spec: stand-in signature fragments (distinct,
non-empty) for instantiating closed theorems. -/
def modelSigs : SigFragments := ⟨[0xE1, 0xE2], [0xE3, 0xE4]⟩

/-- One numeric crucible-mass occurrence over the combined stream-1
bytes: its match offset, float value, and 64-byte lookbehind window. -/
structure COcc where
  pos : Nat
  val : PyNum
  pre : List Nat
  deriving DecidableEq, Repr

/-- All numeric crucible-mass occurrences over the combined bytes
(`finditer` + `parse_value`, non-numeric and undecodable matches
skipped). -/
def crucibleOccs (mk : BinaryMarkers) (cat fld combined : List Nat) :
    List COcc :=
  (metaFinditer mk cat fld combined).filterMap fun m =>
    ((parse_value m.dtype m.value).bind pyFloatOf).map fun n =>
      ⟨m.mstart, n, sliceN combined (m.mstart - 64) m.mstart⟩

/-- `sorted(occ, key=byte_pos)[0]`: the earliest occurrence (stable, so
first-listed among equal offsets). -/
def earliestOcc : List COcc → Option COcc
  | [] => none
  | o :: rest =>
    match earliestOcc rest with
    | none => some o
    | some b => some (if b.pos < o.pos then b else o)

/-- The backward field walk of the disambiguation pass: starting from the
end of a 256-byte window, repeatedly take the latest `END_FIELD` before
the cursor, its preceding `TYPE_PREFIX`, the following `TYPE_SEPARATOR`,
and decode the enclosed value; the first numeric decode wins, and the
cursor otherwise moves to the `END_FIELD` position.  Fuel
`region.length + 1` dominates the strictly decreasing cursor. -/
def walkFieldAux (mk : BinaryMarkers) (region : List Nat) :
    Nat → Nat → Option PyNum
  | _, 0 => none
  | idx, fuel + 1 =>
    match rfindBelow mk.END_FIELD region idx with
    | none => none
    | some e =>
      if e < idx then
        let res : Option PyNum :=
          match rfindBelow mk.TYPE_PREFIX region e with
          | none => none
          | some tpi =>
            let dti := tpi + mk.TYPE_PREFIX.length
            if dti ≥ e then none
            else
              let dt := sliceN region dti (dti + 1)
              match findInRange mk.TYPE_SEPARATOR region (dti + 1) e with
              | none => none
              | some tsp =>
                let raw := sliceN region (tsp + mk.TYPE_SEPARATOR.length) e
                (parse_value dt raw).bind pyFloatOf
        match res with
        | some q => some q
        | none => walkFieldAux mk region e fuel
      else none

/-- First numeric `TYPE_PREFIX … END_FIELD` value scanning backward
through `region`. -/
def walkField (mk : BinaryMarkers) (region : List Nat) : Option PyNum :=
  walkFieldAux mk region region.length (region.length + 1)

/-- The occurrences whose 64-byte lookbehind window contains the
sample-crucible signature fragment. -/
def sampleSigOccs (mk : BinaryMarkers) (sigs : SigFragments)
    (cat fld combined : List Nat) : List COcc :=
  (crucibleOccs mk cat fld combined).filter fun o => containsSub sigs.sample o.pre

/-- The occurrences whose lookbehind window contains the
reference-crucible signature fragment. -/
def refSigOccs (mk : BinaryMarkers) (sigs : SigFragments)
    (cat fld combined : List Nat) : List COcc :=
  (crucibleOccs mk cat fld combined).filter fun o => containsSub sigs.ref o.pre

/-- The occurrences whose value passes the near-zero test. -/
def zeroValOccs (mk : BinaryMarkers) (cat fld combined : List Nat) : List COcc :=
  (crucibleOccs mk cat fld combined).filter fun o => isNearZero o.val

/-- Disambiguation step 1: the earliest sample-signed occurrence becomes
`crucible_mass`. -/
def crucibleSetStep (mk : BinaryMarkers) (sigs : SigFragments)
    (cat fld combined : List Nat) (md : Metadata) : Metadata :=
  match earliestOcc (sampleSigOccs mk sigs cat fld combined) with
  | some o => mput md "crucible_mass" (.num o.val)
  | none => md

/-- Disambiguation step 2: the earliest reference-signed occurrence
becomes `reference_crucible_mass`, and the backward field walk before it
may fill `reference_mass`. -/
def refSetStep (mk : BinaryMarkers) (sigs : SigFragments)
    (cat fld combined : List Nat) (md : Metadata) : Metadata :=
  match earliestOcc (refSigOccs mk sigs cat fld combined) with
  | none => md
  | some o =>
    let md' := mput md "reference_crucible_mass" (.num o.val)
    match walkField mk (sliceN combined (o.pos - 256) o.pos) with
    | some q => mputIfAbsent md' "reference_mass" (.num q)
    | none => md'

/-- Disambiguation step 3: the backward field walk before the earliest
sample-signed occurrence may fill `sample_mass` if still absent. -/
def sampleMassStep (mk : BinaryMarkers) (sigs : SigFragments)
    (cat fld combined : List Nat) (md : Metadata) : Metadata :=
  match earliestOcc (sampleSigOccs mk sigs cat fld combined) with
  | none => md
  | some o =>
    if (md.lookup "sample_mass").isSome then md
    else
      match walkField mk (sliceN combined (o.pos - 256) o.pos) with
      | some q => mput md "sample_mass" (.num q)
      | none => md

/-- Disambiguation step 4: with `crucible_mass` set and
`reference_crucible_mass` still absent, the earliest near-zero
occurrence fills `reference_crucible_mass`. -/
def zeroFallbackStep (mk : BinaryMarkers) (cat fld combined : List Nat)
    (md : Metadata) : Metadata :=
  if (md.lookup "crucible_mass").isSome &&
      !(md.lookup "reference_crucible_mass").isSome &&
      !(zeroValOccs mk cat fld combined).isEmpty then
    match earliestOcc (zeroValOccs mk cat fld combined) with
    | some o => mput md "reference_crucible_mass" (.num o.val)
    | none => md
  else md

/-- Disambiguation step 5: with `crucible_mass` still absent, the
earliest occurrence overall fills it. -/
def finalFallbackStep (mk : BinaryMarkers) (cat fld combined : List Nat)
    (md : Metadata) : Metadata :=
  if !(md.lookup "crucible_mass").isSome &&
      !(crucibleOccs mk cat fld combined).isEmpty then
    match earliestOcc (crucibleOccs mk cat fld combined) with
    | some o => mput md "crucible_mass" (.num o.val)
    | none => md
  else md

/-- The structural crucible-mass classification and assignment, run when
the per-table pass collected at least one numeric occurrence. -/
def disambiguationPass (mk : BinaryMarkers) (sigs : SigFragments)
    (cat fld combined : List Nat) (md : Metadata) : Metadata :=
  finalFallbackStep mk cat fld combined
    (zeroFallbackStep mk cat fld combined
      (sampleMassStep mk sigs cat fld combined
        (refSetStep mk sigs cat fld combined
          (crucibleSetStep mk sigs cat fld combined md))))

/-- The bytes of the crucible-mass pattern from the configuration
(`self._compiled_meta.get("crucible_mass")`; Python dict lookup — under
unique keys, the association-list lookup). -/
def crucibleParams (cfg : PatternConfig) : Option (List Nat × List Nat) :=
  cfg.metadata_patterns.lookup "crucible_mass"

/-- The crucible-mass list the per-table pass collects (`crucible_masses`
in the source) — the guard deciding whether disambiguation runs. -/
def crucibleMassesCollected (cfg : PatternConfig) (mk : BinaryMarkers)
    (tables : List (List Nat)) : List (Nat × PyNum) :=
  (tables.foldl
    (fun st t =>
      let st1 := scalarPassTable cfg mk st t
      (calPass cfg mk st1.1 t, st1.2))
    ([], [])).2

/-- The metadata accumulated before the crucible disambiguation: the
per-table scalar and calibration passes, the temperature program over
the combined bytes, MFC assignment, and control parameters. -/
def preDisambMetadata (cfg : PatternConfig) (mk : BinaryMarkers)
    (tables : List (List Nat)) : Metadata :=
  controlPass tables
    (mfcPass tables
      (tempProgPass cfg
        (tables.foldl
          (fun st t =>
            let st1 := scalarPassTable cfg mk st t
            (calPass cfg mk st1.1 t, st1.2))
          ([], [])).1
        tables.flatten))

/-- `MetadataExtractor.extract_metadata(tables)` (pyngb): the per-table
scalar and calibration passes, then the temperature program over the
combined bytes, MFC assignment, control parameters, and — when numeric
crucible-mass occurrences were collected — the structural disambiguation
over the combined bytes. -/
def extract_metadata (cfg : PatternConfig) (mk : BinaryMarkers)
    (sigs : SigFragments) (tables : List (List Nat)) : Metadata :=
  if !(crucibleMassesCollected cfg mk tables).isEmpty then
    match crucibleParams cfg with
    | some cf =>
      disambiguationPass mk sigs cf.1 cf.2 tables.flatten
        (preDisambMetadata cfg mk tables)
    | none => preDisambMetadata cfg mk tables
  else preDisambMetadata cfg mk tables

/-! ## The pynetzsch `MetadataExtractor`
(pynetzsch/extractors/metadata.py) — the simpler per-table extractor used
by `NGBParser.parse`. -/

/-- The per-table scalar pass of the pynetzsch extractor: each configured
field's **first** match, re-assigned (overwriting) on every table. -/
def pynetzschScalarTable (cfg : PatternConfig) (mk : BinaryMarkers)
    (md : Metadata) (t : List Nat) : Metadata :=
  cfg.metadata_patterns.foldl
    (fun md' fp =>
      match metaSearch mk fp.2.1 fp.2.2 t 0 with
      | none => md'
      | some m =>
        match parse_value m.dtype m.value with
        | none => md'
        | some v0 =>
          let v := if fp.1 = "date_performed" then dateTransform v0 else v0
          mput md' fp.1 (MValue.ofP v))
    md

/-- `_extract_temperature_program(table, metadata)` (pynetzsch): guarded
by the category marker `0c 2b`; the step number is the first ASCII
character of the table's first two bytes (an uncaught `IndexError` when
both bytes are non-ASCII), `"0"` for an empty table. -/
def pynetzschTempProg (cfg : PatternConfig) (mk : BinaryMarkers)
    (md : Metadata) (table : List Nat) : Except PyErr Metadata :=
  if containsSub [0x0C, 0x2B] table then do
    let c ←
      if table = [] then pure 48
      else
        match (pySlice table 0 2).filter (· < 128) with
        | [] => Except.error .indexError
        | c :: _ => pure c
    let md0 := msetdefaultDict md "temperature_program"
    let tp := dictEntriesAt md "temperature_program"
    let stepKey := "step_" ++ String.mk [Char.ofNat c]
    let tp0 := msetdefaultDict tp stepKey
    let sd := dictEntriesAt tp stepKey
    let sd1 := cfg.temp_prog_patterns.foldl
      (fun sd' fp =>
        match calSearch mk fp.2 table 0 with
        | none => sd'
        | some m =>
          match parse_value m.dtype m.value with
          | none => sd'
          | some v => mput sd' fp.1 (MValue.ofP v))
      sd
    pure (mput md0 "temperature_program" (.dict (mput tp0 stepKey (.dict sd1))))
  else pure md

/-- `MetadataExtractor.extract_metadata(tables)` (pynetzsch). -/
def pynetzschExtract (cfg : PatternConfig) (mk : BinaryMarkers)
    (tables : List (List Nat)) : Except PyErr Metadata :=
  tables.foldlM
    (fun md t => do
      let md1 := pynetzschScalarTable cfg mk md t
      let md2 ← pynetzschTempProg cfg mk md1 t
      pure (calPass cfg mk md2 t))
    []

/-! ## `NGBParser.parse` (pynetzsch/core/parser.py)

The archive is its name→bytes entry map (the surrounding file I/O and
ZIP decompression are external).  stream 1 is required
(`NGBStreamNotFoundError` otherwise) and feeds the metadata extractor via
`split_tables`; stream 2, **if present**, produces the data frame;
stream 3, **if present**, is processed against whatever frame exists —
its guard does not consult stream 2.  The `to_arrow()` conversion is the
identity on the column structure. -/

def parseNGB (cfg : PatternConfig) (mk : BinaryMarkers)
    (archive : List (String × List Nat)) :
    Except PyErr (Metadata × DataFrame) := do
  let md ←
    match archive.lookup "Streams/stream_1.table" with
    | some s1 => pynetzschExtract cfg mk (split_tables mk.TABLE_SEPARATOR s1)
    | none => Except.error .streamNotFound
  let df ←
    match archive.lookup "Streams/stream_2.table" with
    | some s2 => process_stream_2 cfg.column_map mk s2
    | none => pure ([] : DataFrame)
  let df ←
    match archive.lookup "Streams/stream_3.table" with
    | some s3 => process_stream_3 cfg.column_map mk s3 df
    | none => pure df
  pure (md, df)

/-! ## Lemmas about searching and splitting -/

theorem pairWithNext_length : ∀ l : List Int, (pairWithNext l).length = l.length
  | [] => rfl
  | [_] => rfl
  | _ :: j :: rest => by
    simp only [pairWithNext, List.length_cons]
    simpa using pairWithNext_length (j :: rest)

theorem findFrom_some_bounds {sub s : List Nat} {start p : Nat}
    (h : findFrom sub s start = some p) :
    start ≤ p ∧ p ≤ s.length ∧ sub.isPrefixOf (s.drop p) := by
  unfold findFrom at h
  rcases hl : (List.range (s.length + 1)).filter
      (fun q => start ≤ q && sub.isPrefixOf (s.drop q)) with _ | ⟨a, t⟩
  · rw [hl] at h; simp at h
  · rw [hl] at h
    simp only [List.head?_cons, Option.some.injEq] at h
    have ha : a ∈ (List.range (s.length + 1)).filter
        (fun q => start ≤ q && sub.isPrefixOf (s.drop q)) := by
      rw [hl]; exact List.mem_cons_self _ _
    rw [List.mem_filter] at ha
    obtain ⟨hr, hc⟩ := ha
    rw [List.mem_range] at hr
    simp only [Bool.and_eq_true, decide_eq_true_eq] at hc
    rw [← h]
    exact ⟨hc.1, by omega, hc.2⟩

theorem findFrom_none {sub s : List Nat} {start : Nat}
    (h : findFrom sub s start = none) :
    ∀ p, start ≤ p → p ≤ s.length → ¬ sub.isPrefixOf (s.drop p) := by
  intro p hsp hpl hpre
  unfold findFrom at h
  rw [List.head?_eq_none_iff] at h
  have : p ∈ (List.range (s.length + 1)).filter
      (fun q => start ≤ q && sub.isPrefixOf (s.drop q)) := by
    rw [List.mem_filter, List.mem_range]
    refine ⟨by omega, ?_⟩
    simp [hsp, hpre]
  rw [h] at this
  exact absurd this (List.not_mem_nil p)

theorem findAllAux_mem_bounds {sub s : List Nat} :
    ∀ (fuel start p : Nat), p ∈ findAllAux sub s start fuel →
      start ≤ p ∧ p ≤ s.length := by
  intro fuel
  induction fuel with
  | zero => intro start p hp; simp [findAllAux] at hp
  | succ n ih =>
    intro start p hp
    unfold findAllAux at hp
    rcases hf : findFrom sub s start with _ | q
    · rw [hf] at hp; exact absurd hp (List.not_mem_nil p)
    · rw [hf] at hp
      rcases List.mem_cons.mp hp with rfl | hmem
      · exact ⟨(findFrom_some_bounds hf).1, (findFrom_some_bounds hf).2.1⟩
      · have := ih (q + sub.length) p hmem
        have hq := findFrom_some_bounds hf
        exact ⟨by omega, this.2⟩

theorem findAllAux_chain {sub s : List Nat} (hsub : sub ≠ []) :
    ∀ (fuel start : Nat), List.Chain' (· < ·) (findAllAux sub s start fuel) := by
  intro fuel
  induction fuel with
  | zero => intro start; simp [findAllAux]
  | succ n ih =>
    intro start
    unfold findAllAux
    rcases hf : findFrom sub s start with _ | q
    · simp
    · rw [List.chain'_cons']
      refine ⟨?_, ih (q + sub.length)⟩
      intro y hy
      have hmem : y ∈ findAllAux sub s (q + sub.length) n :=
        List.mem_of_mem_head? hy
      have := (findAllAux_mem_bounds n (q + sub.length) y hmem).1
      have hlen : 0 < sub.length := List.length_pos.mpr hsub
      omega

theorem pySlice_of_nonneg (s : List Nat) (a b : Int) (ha : 0 ≤ a) (hab : a ≤ b)
    (hb : b ≤ (s.length : Int)) :
    pySlice s a b = (s.drop a.toNat).take (b.toNat - a.toNat) := by
  unfold pySlice
  have h1 : ¬ a < 0 := by omega
  have h2 : ¬ b < 0 := by omega
  simp only [h1, h2, if_false]
  congr 1
  · omega
  · congr 1
    omega

theorem pySliceFrom_drop (data : List Nat) (i : Int) (h0 : 0 ≤ i)
    (hn : i ≤ (data.length : Int)) :
    pySliceFrom data i = data.drop i.toNat := by
  rw [pySliceFrom, pySlice_of_nonneg data i data.length h0 hn le_rfl]
  rw [Int.toNat_natCast]
  have hlen : (data.drop i.toNat).length = data.length - i.toNat :=
    List.length_drop _ _
  calc (data.drop i.toNat).take (data.length - i.toNat)
      = (data.drop i.toNat).take (data.drop i.toNat).length := by rw [hlen]
    _ = data.drop i.toNat := List.take_length _

theorem tablesOfIndices_flatten (data : List Nat) :
    ∀ l : List Int, (∀ i ∈ l, 0 ≤ i ∧ i ≤ (data.length : Int)) →
      List.Chain' (· ≤ ·) l →
      (tablesOfIndices data l).flatten =
        (match l.head? with
         | none => ([] : List Nat)
         | some i => data.drop i.toNat)
  | [], _, _ => rfl
  | [i], hb, _ => by
    have h := hb i (List.mem_singleton_self i)
    simp only [tablesOfIndices, pairWithNext, List.map_cons, List.map_nil,
      List.flatten_cons, List.flatten_nil, List.append_nil, List.head?_cons]
    exact pySliceFrom_drop data i h.1 h.2
  | i :: j :: rest, hb, hc => by
    have hi := hb i (by simp)
    have hj := hb j (by simp)
    have hij : i ≤ j := (List.chain'_cons.mp hc).1
    have ih := tablesOfIndices_flatten data (j :: rest)
      (fun k hk => hb k (List.mem_cons_of_mem i hk)) (List.chain'_cons.mp hc).2
    simp only [tablesOfIndices, pairWithNext, List.map_cons, List.flatten_cons,
      List.head?_cons] at ih ⊢
    rw [ih]
    rw [pySlice_of_nonneg data i j hi.1 hij hj.2]
    have hdd : data.drop j.toNat = (data.drop i.toNat).drop (j.toNat - i.toNat) := by
      rw [List.drop_drop]
      congr 1
      omega
    rw [hdd]
    exact List.take_append_drop _ _

theorem findAll_eq_nil_of_not_infix {sep data : List Nat}
    (h : ¬ sep <:+: data) : findAll sep data = [] := by
  unfold findAll
  unfold findAllAux
  rcases hf : findFrom sep data 0 with _ | p
  · rfl
  · exfalso
    have hb := findFrom_some_bounds hf
    have hpre : sep <+: data.drop p := List.isPrefixOf_iff_prefix.mp hb.2.2
    exact h (hpre.isInfix.trans (List.drop_suffix p data).isInfix)

/-- **C6.** For every byte buffer `B`, `split_tables(B)` returns at least
one table, and when `B` contains zero occurrences of the table separator
it returns exactly `[B]`. -/
theorem claim_C6 (sep data : List Nat) :
    1 ≤ (split_tables sep data).length ∧
    (¬ sep <:+: data → split_tables sep data = [data]) := by
  constructor
  · by_cases h : sepIndices sep data = []
    · simp [split_tables, h]
    · have hlen : (tablesOfIndices data (sepIndices sep data)).length
          = (sepIndices sep data).length := by
        unfold tablesOfIndices
        rw [List.length_map, pairWithNext_length]
      have hpos : 0 < (sepIndices sep data).length := List.length_pos.mpr h
      simp only [split_tables, h, if_false]
      omega
  · intro hinf
    have hnil : findAll sep data = [] := findAll_eq_nil_of_not_infix hinf
    simp [split_tables, sepIndices, hnil]

/-- Witness for C6 at a concrete separator and buffer. -/
theorem claim_C6_witness :
    1 ≤ (split_tables [1] [2, 3]).length ∧ split_tables [1] [2, 3] = [[2, 3]] :=
  ⟨(claim_C6 [1] [2, 3]).1, (claim_C6 [1] [2, 3]).2 (by decide)⟩

/-- **C7 counterexample.** On a buffer with no separator occurrence the
inline split of the stream processors returns no tables, while
`split_tables` returns the whole buffer as one table — so the two are
not equal for every input. -/
theorem claim_C7_counterexample :
    inlineSplit modelMarkers.TABLE_SEPARATOR [0]
      ≠ split_tables modelMarkers.TABLE_SEPARATOR [0] ∧
    inlineSplit modelMarkers.TABLE_SEPARATOR [0] = [] ∧
    split_tables modelMarkers.TABLE_SEPARATOR [0] = [[0]] := by
  refine ⟨?_, by decide, by decide⟩
  decide

/-- **C7 (amended).** The inline table split of `process_stream_2` /
`process_stream_3` equals `split_tables` on every buffer containing at
least one separator occurrence; on a separator-free buffer the inline
split yields no tables while `split_tables` yields `[B]`. -/
theorem claim_C7_amended (sep data : List Nat) :
    (sepIndices sep data ≠ [] → inlineSplit sep data = split_tables sep data) ∧
    (sepIndices sep data = [] →
      inlineSplit sep data = [] ∧ split_tables sep data = [data]) := by
  constructor
  · intro h
    simp [inlineSplit, split_tables, h]
  · intro h
    simp [inlineSplit, split_tables, h, tablesOfIndices, pairWithNext]

/-- Witness for the amended C7 at a concrete separator and buffer. -/
theorem claim_C7_amended_witness :
    inlineSplit [9] [7, 7, 9, 5] = split_tables [9] [7, 7, 9, 5] :=
  (claim_C7_amended [9] [7, 7, 9, 5]).1 (by decide)

/-- **C10.** `split_tables` does not partition its input: when the
earliest separator occurrence begins at offset `s ≥ 2`, the returned
tables are non-empty, their concatenation is exactly the suffix of the
input from offset `s - 2` (so the first `s - 2` bytes belong to no
table), and the first returned table begins at offset `s - 2`. -/
theorem findAllAux_succ (sub s : List Nat) (start fuel : Nat) :
    findAllAux sub s start (fuel + 1) =
      match findFrom sub s start with
      | none => []
      | some p => p :: findAllAux sub s (p + sub.length) fuel := rfl

/-- **C10.** `split_tables` does not partition its input: when the
earliest separator occurrence begins at offset `s ≥ 2`, the returned
tables are non-empty, their concatenation is exactly the suffix of the
input from offset `s - 2` (so the first `s - 2` bytes belong to no
table), and the first returned table begins at offset `s - 2`. -/
theorem claim_C10 (sep data : List Nat) (s : Nat) (hsep : sep ≠ [])
    (hhead : (findAll sep data).head? = some s) (hs : 2 ≤ s) :
    split_tables sep data ≠ [] ∧
    (split_tables sep data).flatten = data.drop (s - 2) ∧
    (split_tables sep data).head?.getD []
      = (data.drop (s - 2)).take ((split_tables sep data).head?.getD []).length := by
  have hstep : findAll sep data =
      match findFrom sep data 0 with
      | none => []
      | some p => p :: findAllAux sep data (p + sep.length) data.length :=
    findAllAux_succ sep data 0 data.length
  rcases hf : findFrom sep data 0 with _ | p
  · rw [hstep, hf] at hhead; simp at hhead
  · rw [hstep, hf] at hhead
    simp only [List.head?_cons, Option.some.injEq] at hhead
    have hocc : findAll sep data
        = s :: findAllAux sep data (s + sep.length) data.length := by
      rw [hstep, hf, hhead]
    have hslen : s ≤ data.length := by
      have hb := findFrom_some_bounds hf
      omega
    have htlb : ∀ q ∈ findAllAux sep data (s + sep.length) data.length,
        s ≤ q ∧ q ≤ data.length := by
      intro q hq
      have hb := findAllAux_mem_bounds data.length (s + sep.length) q hq
      omega
    have hidxeq : sepIndices sep data
        = ((s : Int) - 2)
          :: (findAllAux sep data (s + sep.length) data.length).map
              (fun (q : Nat) => (q : Int) - 2) := by
      rw [sepIndices, hocc]
      simp only [List.map_cons]
    have hne : sepIndices sep data ≠ [] := by rw [hidxeq]; simp
    have hsplit : split_tables sep data
        = tablesOfIndices data (sepIndices sep data) := by
      simp [split_tables, hne]
    have hbounds : ∀ i ∈ sepIndices sep data, 0 ≤ i ∧ i ≤ (data.length : Int) := by
      intro i hi
      rw [hidxeq] at hi
      rcases List.mem_cons.mp hi with rfl | hi2
      · constructor <;> omega
      · obtain ⟨q, hq, rfl⟩ := List.mem_map.mp hi2
        have hb := htlb q hq
        constructor <;> omega
    have hchain : List.Chain' (· ≤ ·) (sepIndices sep data) := by
      have hc1 : List.Chain' (· < ·) (findAll sep data) := by
        unfold findAll
        exact findAllAux_chain hsep _ 0
      have hc2 : List.Chain' (fun a b : Nat => ((a : Int) - 2) ≤ ((b : Int) - 2))
          (findAll sep data) := hc1.imp (fun a b hab => by omega)
      rw [sepIndices]
      exact (List.chain'_map (fun q : Nat => (q : Int) - 2)).mpr hc2
    have hflat := tablesOfIndices_flatten data (sepIndices sep data) hbounds hchain
    have hflat2 : (tablesOfIndices data (sepIndices sep data)).flatten
        = data.drop (s - 2) := by
      rw [hidxeq] at hflat ⊢
      simp only [List.head?_cons] at hflat
      have htoNat : ((s : Int) - 2).toNat = s - 2 := by omega
      rw [htoNat] at hflat
      rw [← hidxeq] at hflat ⊢
      exact hflat
    have hlenres : (tablesOfIndices data (sepIndices sep data)).length
        = (sepIndices sep data).length := by
      unfold tablesOfIndices
      rw [List.length_map, pairWithNext_length]
    have hpos : 0 < (sepIndices sep data).length := List.length_pos.mpr hne
    refine ⟨?_, ?_, ?_⟩
    · rw [hsplit]
      intro hcon
      rw [hcon] at hlenres
      simp only [List.length_nil] at hlenres
      omega
    · rw [hsplit, hflat2]
    · rw [hsplit]
      rcases hres : tablesOfIndices data (sepIndices sep data) with _ | ⟨t, ts⟩
      · rw [hres] at hlenres
        simp only [List.length_nil] at hlenres
        omega
      · rw [hres] at hflat2
        simp only [List.flatten_cons] at hflat2
        simp only [List.head?_cons, Option.getD_some]
        calc t = (t ++ ts.flatten).take t.length := (List.take_left ..).symm
          _ = (data.drop (s - 2)).take t.length := by rw [hflat2]

/-- Witness for C10 at a concrete separator and buffer (earliest
occurrence at offset 2). -/
theorem claim_C10_witness :
    split_tables [9] [7, 7, 9, 5] ≠ [] ∧
    (split_tables [9] [7, 7, 9, 5]).flatten = [7, 7, 9, 5].drop 0 ∧
    (split_tables [9] [7, 7, 9, 5]).head?.getD []
      = ([7, 7, 9, 5].drop 0).take ((split_tables [9] [7, 7, 9, 5]).head?.getD []).length :=
  claim_C10 [9] [7, 7, 9, 5] 2 (by decide) (by decide) (by decide)

/-! ## C9: the data-type registry dispatch -/

/-- **C9.** `DataTypeRegistry.parse_data(t, d)`: the first registered
handler (in registration order) whose `can_handle(t)` holds decides the
result, and — for the registry as constructed with its default Float64
and Float32 handlers — the `NGBDataTypeError` naming the tag is raised
exactly when no handler accepts the tag. -/
theorem claim_C9 :
    (∀ (hs : List DataTypeHandler) (t d : List Nat),
      registryParseData hs t d =
        match hs.find? (fun h => h.canHandle t) with
        | some h => h.parseData d
        | none => .error (.ngbDataTypeError t)) ∧
    (∀ t d : List Nat,
      registryParseData defaultHandlers t d = .error (.ngbDataTypeError t) ↔
        (t ≠ FLOAT64_TAG ∧ t ≠ FLOAT32_TAG)) := by
  constructor
  · intro hs t d
    induction hs with
    | nil => rfl
    | cons h rest ih =>
      by_cases hc : h.canHandle t
      · simp [registryParseData, List.find?_cons, hc]
      · simp only [Bool.not_eq_true] at hc
        simp [registryParseData, List.find?_cons, hc, ih]
  · intro t d
    by_cases h64 : t = FLOAT64_TAG
    · subst h64
      have hd : registryParseData defaultHandlers FLOAT64_TAG d
          = float64Handler.parseData d := rfl
      rw [hd]
      simp only [float64Handler]
      constructor
      · intro h
        by_cases hm : d.length % 8 = 0 <;> simp [hm] at h
      · rintro ⟨ha, _⟩
        exact absurd rfl ha
    · by_cases h32 : t = FLOAT32_TAG
      · subst h32
        have hd : registryParseData defaultHandlers FLOAT32_TAG d
            = float32Handler.parseData d := rfl
        rw [hd]
        simp only [float32Handler]
        constructor
        · intro h
          by_cases hm : d.length % 4 = 0 <;> simp [hm] at h
        · rintro ⟨_, hb⟩
          exact absurd rfl hb
      · have hc1 : float64Handler.canHandle t = false := by
          simp only [float64Handler]
          rw [decide_eq_false_iff_not]
          exact h64
        have hc2 : float32Handler.canHandle t = false := by
          simp only [float32Handler]
          rw [decide_eq_false_iff_not]
          exact h32
        have hd : registryParseData defaultHandlers t d
            = .error (.ngbDataTypeError t) := by
          simp [registryParseData, defaultHandlers, hc1, hc2]
        rw [hd]
        simp [h64, h32]

/-- Witness for C9: an unregistered tag produces the tagged error. -/
theorem claim_C9_witness :
    registryParseData defaultHandlers [0x09] []
      = .error (.ngbDataTypeError [0x09]) :=
  (claim_C9.2 [0x09] []).mpr (by decide)

/-! ## C8: `parse_value` on the String tag -/

/-- **C8 counterexample.** The claim says interior NUL bytes are
preserved; but `parse_value(String, ·)` removes *every* NUL
(`.replace("\x00", "")` runs after `.strip()`), so the interior NUL of
`b"\x05\x00\x00\x00A\x00B"` is dropped: the result is `"AB"`, not
`"A\x00B"`. -/
theorem claim_C8_counterexample :
    parse_value STRING_TAG [0x05, 0x00, 0x00, 0x00, 0x41, 0x00, 0x42]
      = some (.str [0x41, 0x42]) ∧
    some (PVal.str [0x41, 0x42]) ≠ some (PVal.str [0x41, 0x00, 0x42]) := by
  constructor
  · rfl
  · decide

/-- **C8 (amended).** `parse_value(String, v)` returns `v` without its
first 4 bytes, decoded as UTF-8 with malformed sequences dropped
(`errors="ignore"`), with whitespace trimmed from both ends first and
then **all** NUL characters (trailing and interior alike) removed — so
the result never contains a NUL; in particular
`parse_value(String, b"\x05\x00\x00\x00Hello")` returns `"Hello"`. -/
theorem claim_C8_amended :
    ∀ v : List Nat,
      parse_value STRING_TAG v
        = some (.str (removeNuls (pyStrip (utf8DecodeIgnore (v.drop 4))))) ∧
      (∀ s, parse_value STRING_TAG v = some (.str s) → 0 ∉ s) ∧
      parse_value STRING_TAG [0x05, 0x00, 0x00, 0x00, 0x48, 0x65, 0x6C, 0x6C, 0x6F]
        = some (.str (strCodes "Hello")) := by
  intro v
  refine ⟨rfl, ?_, by decide⟩
  intro s h
  have hs : s = removeNuls (pyStrip (utf8DecodeIgnore (v.drop 4))) := by
    have h0 : parse_value STRING_TAG v
        = some (.str (removeNuls (pyStrip (utf8DecodeIgnore (v.drop 4))))) := rfl
    rw [h0] at h
    simpa using h.symm
  rw [hs, removeNuls]
  intro hmem
  have := (List.mem_filter.mp hmem).2
  simp at this

/-- Witness for the amended C8: the concrete `"Hello"` decode has no NUL
in its result. -/
theorem claim_C8_amended_witness : 0 ∉ strCodes "Hello" :=
  (claim_C8_amended [0x05, 0x00, 0x00, 0x00, 0x48, 0x65, 0x6C, 0x6C, 0x6F]).2.1
    (strCodes "Hello") (by decide)

/-- Decidable equality for `Except` results (used to evaluate closed
statements about the embedded fallible code paths). -/
instance {m n : Type} [DecidableEq m] [DecidableEq n] : DecidableEq (Except m n) :=
  fun a b =>
    match a, b with
    | .ok x, .ok y =>
      if h : x = y then .isTrue (by rw [h])
      else .isFalse (fun hc => h (Except.ok.inj hc))
    | .error x, .error y =>
      if h : x = y then .isTrue (by rw [h])
      else .isFalse (fun hc => h (Except.error.inj hc))
    | .ok _, .error _ => .isFalse (fun hc => Except.noConfusion hc)
    | .error _, .ok _ => .isFalse (fun hc => Except.noConfusion hc)

theorem exceptBind_ok {m n k : Type} (a : n) (f : n → Except m k) :
    (Except.ok a >>= f : Except m k) = f a := rfl

/-! ## C1: stream-2 column commit timing -/

/-- The column map used in the C1 scenario ("8d" is the mapped column id
of the claim; the default map is in the missing `constants.py`, so a
concrete map with the spec's example entries stands in). -/
def c1cmap : List (String × String) :=
  [("8d", "time"), ("8e", "sample_temperature")]

/-- 24 payload bytes: `struct.pack("<d", v)` for `v = 1.0, 2.0, 3.0`. -/
def c1payload : List Nat :=
  [0, 0, 0, 0, 0, 0, 0xF0, 0x3F] ++ [0, 0, 0, 0, 0, 0, 0, 0x40] ++
    [0, 0, 0, 0, 0, 0, 8, 0x40]

/-- A stream-2 byte buffer whose inline split yields exactly one header
table (id `8d`, second byte `0x17`) followed by one data table whose bulk
array holds the three Float64 values 1.0, 2.0, 3.0. -/
def c1stream : List Nat :=
  [0x8D, 0x17] ++ modelMarkers.TABLE_SEPARATOR ++
    [0x00, 0x75] ++ modelMarkers.TABLE_SEPARATOR ++
    [0x05] ++ modelMarkers.START_DATA ++ [0, 0, 0, 0] ++ c1payload ++
    modelMarkers.END_DATA

/-- **C1 counterexample.** On one header table (mapped id "8d") followed
by one data table of three Float64 values, `process_stream_2` returns an
*empty* table — no "time" column at all — because the buffered array is
committed only when a *subsequent* header table arrives, never at end of
processing. -/
theorem claim_C1_counterexample :
    process_stream_2 c1cmap modelMarkers c1stream = .ok ([] : DataFrame) ∧
    (([] : DataFrame).lookup "time" = none) := by
  constructor
  · rfl
  · rfl

/-- **C1 (amended).** In the stream-2 loop, a buffered array of more than
one element is committed only when the *next* header table arrives — not
at end of processing — and the committed column is named per the mapping
of the *new* header's id: after a header table, a data table buffering
three decoded Float64 values, and a second header table, the resulting
frame holds exactly those three values under the second header's mapped
name, while without the second header the frame stays empty (the buffer
is dropped).  (`process_stream_2` is this fold over the inline table
split.) -/
theorem claim_C1_amended (cmap : List (String × String)) (mk : BinaryMarkers)
    (h1 d1 h2 : List Nat) (vals : List PyNum)
    (hh1 : pySlice h1 1 2 = [0x17]) (hh2 : pySlice h2 1 2 = [0x17])
    (hd1 : pySlice d1 1 2 = [0x75])
    (hscan : streamDataScan mk d1 = .ok (some vals))
    (h3 : vals.length = 3) :
    [h1, d1].foldlM (stream2Table cmap mk) (([] : DataFrame), [], none)
      = .ok ([], vals,
          some ((cmap.lookup (bytesHex (pySlice h1 0 1))).getD
            (bytesHex (pySlice h1 0 1)))) ∧
    [h1, d1, h2].foldlM (stream2Table cmap mk) (([] : DataFrame), [], none)
      = .ok ([(((cmap.lookup (bytesHex (pySlice h2 0 1))).getD
                (bytesHex (pySlice h2 0 1))), vals)], [],
          some ((cmap.lookup (bytesHex (pySlice h2 0 1))).getD
            (bytesHex (pySlice h2 0 1)))) := by
  have hne1 : ¬ pySlice h1 1 2 = [0x75] := by rw [hh1]; decide
  have hne2 : ¬ pySlice h2 1 2 = [0x75] := by rw [hh2]; decide
  have hnd1 : ¬ pySlice d1 1 2 = [0x17] := by rw [hd1]; decide
  have step1 : stream2Table cmap mk (([] : DataFrame), [], none) h1
      = .ok ([], [],
          some ((cmap.lookup (bytesHex (pySlice h1 0 1))).getD
            (bytesHex (pySlice h1 0 1)))) := by
    simp [stream2Table, hh1, hne1]
  have step2 : stream2Table cmap mk
      (([] : DataFrame), [],
        some ((cmap.lookup (bytesHex (pySlice h1 0 1))).getD
          (bytesHex (pySlice h1 0 1)))) d1
      = .ok ([], vals,
          some ((cmap.lookup (bytesHex (pySlice h1 0 1))).getD
            (bytesHex (pySlice h1 0 1)))) := by
    simp [stream2Table, hnd1, hd1, hscan]
  have step3 : stream2Table cmap mk
      (([] : DataFrame), vals,
        some ((cmap.lookup (bytesHex (pySlice h1 0 1))).getD
          (bytesHex (pySlice h1 0 1)))) h2
      = .ok ([(((cmap.lookup (bytesHex (pySlice h2 0 1))).getD
                (bytesHex (pySlice h2 0 1))), vals)], [],
          some ((cmap.lookup (bytesHex (pySlice h2 0 1))).getD
            (bytesHex (pySlice h2 0 1)))) := by
    simp [stream2Table, hh2, hne2, h3, withColumnsCaught]
  constructor
  · rw [List.foldlM_cons, step1]
    simp only [exceptBind_ok]
    rw [List.foldlM_cons, step2]
    simp only [exceptBind_ok]
    rfl
  · rw [List.foldlM_cons, step1]
    simp only [exceptBind_ok]
    rw [List.foldlM_cons, step2]
    simp only [exceptBind_ok]
    rw [List.foldlM_cons, step3]
    simp only [exceptBind_ok]
    rfl

/-- Witness for the amended C1 at concrete tables and values. -/
theorem claim_C1_amended_witness :
    [[0x8D, 0x17],
     [0x00, 0x75, 0x05] ++ modelMarkers.START_DATA ++ [0, 0, 0, 0] ++
       c1payload ++ modelMarkers.END_DATA,
     [0x8E, 0x17]].foldlM (stream2Table c1cmap modelMarkers)
        (([] : DataFrame), [], none)
      = .ok ([("sample_temperature",
               [.ofDy ⟨1, 0⟩, .ofDy ⟨1, 1⟩, .ofDy ⟨3, 0⟩])], [],
          some "sample_temperature") := by
  have h := (claim_C1_amended c1cmap modelMarkers
    [0x8D, 0x17]
    ([0x00, 0x75, 0x05] ++ modelMarkers.START_DATA ++ [0, 0, 0, 0] ++
      c1payload ++ modelMarkers.END_DATA)
    [0x8E, 0x17]
    [.ofDy ⟨1, 0⟩, .ofDy ⟨1, 1⟩, .ofDy ⟨3, 0⟩]
    (by decide) (by decide) (by decide) (by decide) (by decide)).2
  exact h.trans (by decide)

/-! ## Dict-lookup lemmas -/

theorem lookup_map_replace (md : Metadata) (k : String) (v : MValue) :
    ∀ k' : String,
      (md.map fun kv => if kv.1 = k then (kv.1, v) else kv).lookup k'
        = if k' = k ∧ (md.lookup k').isSome then some v else md.lookup k' := by
  induction md with
  | nil => intro k'; simp
  | cons kv rest ih =>
    obtain ⟨k0, v0⟩ := kv
    intro k'
    simp only [List.map_cons]
    by_cases hk : k0 = k
    · rw [if_pos hk]
      by_cases hk' : k' = k0
      · subst hk'
        subst hk
        simp [List.lookup]
      · have hb : (k' == k0) = false := by simpa using hk'
        simp only [List.lookup, hb]
        rw [ih k']
    · rw [if_neg hk]
      by_cases hk' : k' = k0
      · subst hk'
        simp [List.lookup, hk]
      · have hb : (k' == k0) = false := by simpa using hk'
        simp only [List.lookup, hb]
        exact ih k'

theorem lookup_append_right (md : Metadata) (k : String) (v : MValue)
    (h : md.lookup k = none) : (md ++ [(k, v)]).lookup k = some v := by
  induction md with
  | nil => simp [List.lookup]
  | cons kv rest ih =>
    obtain ⟨k0, v0⟩ := kv
    by_cases hk : k = k0
    · subst hk
      simp [List.lookup] at h
    · have hb : (k == k0) = false := by simpa using hk
      simp only [List.lookup, List.cons_append, hb] at h ⊢
      exact ih h

theorem lookup_append_right_ne (md : Metadata) (k k' : String) (v : MValue)
    (h : k' ≠ k) : (md ++ [(k, v)]).lookup k' = md.lookup k' := by
  induction md with
  | nil =>
    have hb : (k' == k) = false := by simpa using h
    simp [List.lookup, hb]
  | cons kv rest ih =>
    obtain ⟨k0, v0⟩ := kv
    by_cases hk : k' = k0
    · subst hk
      simp [List.lookup, List.cons_append]
    · have hb : (k' == k0) = false := by simpa using hk
      simp only [List.lookup, List.cons_append, hb]
      exact ih

/-- Dict assignment then lookup of the same key. -/
theorem lookup_mput_self (md : Metadata) (k : String) (v : MValue) :
    (mput md k v).lookup k = some v := by
  unfold mput
  by_cases h : (md.lookup k).isSome
  · rw [if_pos h, lookup_map_replace]
    simp [h]
  · rw [if_neg h]
    exact lookup_append_right md k v (Option.not_isSome_iff_eq_none.mp h)

/-- Dict assignment leaves other keys' lookups unchanged. -/
theorem lookup_mput_ne (md : Metadata) (k k' : String) (v : MValue)
    (h : k' ≠ k) : (mput md k v).lookup k' = md.lookup k' := by
  unfold mput
  by_cases hp : (md.lookup k).isSome
  · rw [if_pos hp, lookup_map_replace]
    simp [h]
  · rw [if_neg hp]
    exact lookup_append_right_ne md k k' v h

/-- Guarded insertion leaves other keys' lookups unchanged. -/
theorem lookup_mputIfAbsent_ne (md : Metadata) (k k' : String) (v : MValue)
    (h : k' ≠ k) : (mputIfAbsent md k v).lookup k' = md.lookup k' := by
  unfold mputIfAbsent
  by_cases hp : (md.lookup k).isSome
  · rw [if_pos hp]
  · rw [if_neg hp]
    exact lookup_append_right_ne md k k' v h

/-! ## C3: PID control parameters -/

/-- A table yielding all three PID parameters through the signature scan
(xp/tn/tv codes each followed by the float 5.0 within the window). -/
def c3table : List Nat :=
  [0x03, 0x80, 0x01, 0xE7, 0x0F,
   0x03, 0x80, 0x01, 0xE8, 0x0F,
   0x03, 0x80, 0x01, 0xE9, 0x0F,
   0x00, 0x00, 0xA0, 0x40]

/-- **C3 counterexample.** A table list with exactly one control table —
one table yielding all three PID parameters — produces *no*
`furnace_xp/tn/tv` keys: the code assigns only when at least two control
tables exist. -/
theorem claim_C3_counterexample :
    controlTables [c3table]
      = [(0, ⟨some (.ofDy ⟨5, 0⟩), some (.ofDy ⟨5, 0⟩), some (.ofDy ⟨5, 0⟩)⟩)] ∧
    controlPass [c3table] [] = [] ∧
    ([] : Metadata).lookup "furnace_xp" = none := by
  refine ⟨by decide, rfl, rfl⟩

/-- **C3 (amended).** When at least **two** control tables exist, the
first control table's parameters are recorded as `furnace_xp/tn/tv` and
the second's as `sample_xp/tn/tv`; with fewer than two control tables
nothing is recorded. -/
theorem claim_C3_amended (tables : List (List Nat)) (md : Metadata)
    (t1 t2 : Nat × PidParams) (rest : List (Nat × PidParams))
    (x1 y1 z1 x2 y2 z2 : PyNum)
    (hct : controlTables tables = t1 :: t2 :: rest)
    (h1x : t1.2.xp = some x1) (h1y : t1.2.tn = some y1) (h1z : t1.2.tv = some z1)
    (h2x : t2.2.xp = some x2) (h2y : t2.2.tn = some y2) (h2z : t2.2.tv = some z2) :
    ((controlPass tables md).lookup "furnace_xp" = some (.num x1)) ∧
    ((controlPass tables md).lookup "furnace_tn" = some (.num y1)) ∧
    ((controlPass tables md).lookup "furnace_tv" = some (.num z1)) ∧
    ((controlPass tables md).lookup "sample_xp" = some (.num x2)) ∧
    ((controlPass tables md).lookup "sample_tn" = some (.num y2)) ∧
    ((controlPass tables md).lookup "sample_tv" = some (.num z2)) := by
  have hcp : controlPass tables md
      = pidWrite (pidWrite md "furnace_" t1.2) "sample_" t2.2 := by
    unfold controlPass
    rw [hct]
  have hfw : pidWrite md "furnace_" t1.2
      = mput (mput (mput md "furnace_xp" (.num x1)) "furnace_tn" (.num y1))
          "furnace_tv" (.num z1) := by
    simp only [pidWrite, h1x, h1y, h1z]
    rfl
  have hsw : ∀ m : Metadata, pidWrite m "sample_" t2.2
      = mput (mput (mput m "sample_xp" (.num x2)) "sample_tn" (.num y2))
          "sample_tv" (.num z2) := by
    intro m
    simp only [pidWrite, h2x, h2y, h2z]
    rfl
  rw [hcp, hfw, hsw]
  refine ⟨?_, ?_, ?_, ?_, ?_, ?_⟩
  · rw [lookup_mput_ne _ _ _ _ (by decide), lookup_mput_ne _ _ _ _ (by decide),
      lookup_mput_ne _ _ _ _ (by decide), lookup_mput_ne _ _ _ _ (by decide),
      lookup_mput_ne _ _ _ _ (by decide)]
    exact lookup_mput_self _ _ _
  · rw [lookup_mput_ne _ _ _ _ (by decide), lookup_mput_ne _ _ _ _ (by decide),
      lookup_mput_ne _ _ _ _ (by decide), lookup_mput_ne _ _ _ _ (by decide)]
    exact lookup_mput_self _ _ _
  · rw [lookup_mput_ne _ _ _ _ (by decide), lookup_mput_ne _ _ _ _ (by decide),
      lookup_mput_ne _ _ _ _ (by decide)]
    exact lookup_mput_self _ _ _
  · rw [lookup_mput_ne _ _ _ _ (by decide), lookup_mput_ne _ _ _ _ (by decide)]
    exact lookup_mput_self _ _ _
  · rw [lookup_mput_ne _ _ _ _ (by decide)]
    exact lookup_mput_self _ _ _
  · exact lookup_mput_self _ _ _

/-- Witness for the amended C3: two control tables, furnace and sample
parameters all recorded (value 5.0). -/
theorem claim_C3_amended_witness :
    ((controlPass [c3table, c3table] []).lookup "furnace_xp"
      = some (.num (.ofDy ⟨5, 0⟩))) ∧
    ((controlPass [c3table, c3table] []).lookup "sample_tv"
      = some (.num (.ofDy ⟨5, 0⟩))) := by
  have h := claim_C3_amended [c3table, c3table] []
    (0, ⟨some (.ofDy ⟨5, 0⟩), some (.ofDy ⟨5, 0⟩), some (.ofDy ⟨5, 0⟩)⟩)
    (1, ⟨some (.ofDy ⟨5, 0⟩), some (.ofDy ⟨5, 0⟩), some (.ofDy ⟨5, 0⟩)⟩)
    [] (.ofDy ⟨5, 0⟩) (.ofDy ⟨5, 0⟩) (.ofDy ⟨5, 0⟩)
    (.ofDy ⟨5, 0⟩) (.ofDy ⟨5, 0⟩) (.ofDy ⟨5, 0⟩)
    (by decide) rfl rfl rfl rfl rfl rfl
  exact ⟨h.1, h.2.2.2.2.2⟩

/-! ## C5: MFC channel assignment -/

/-- A table carrying the three channel-name UTF-16LE strings. -/
def c5nameTable : List Nat :=
  utf16le "Purge 1" ++ utf16le "Purge 2" ++ utf16le "Protective"

/-- An MFC-signature table carrying the 250.0 range encoding. -/
def c5r250 : List Nat := [0x03, 0x80, 0x01, 0x48, 0x10] ++ bytes250

/-- An MFC-signature table carrying the 252.5 range encoding. -/
def c5r2525 : List Nat := [0x03, 0x80, 0x01, 0x48, 0x10] ++ bytes252_5

/-- A gas-context table (length > 20, second byte `0x1B`, containing
UTF-16LE `NITROGEN`). -/
def c5gasTable : List Nat := [0x00, 0x1B] ++ utf16le "NITROGEN" ++ [0, 0, 0]

/-- Channel names and ranges discovered in the claimed orders, but with
no gas-context table anywhere. -/
def c5tablesNoGas : List (List Nat) := [c5nameTable, c5r250, c5r2525, c5r250]

/-- The same discovery orders with a preceding gas-context table. -/
def c5tablesGas : List (List Nat) :=
  [c5nameTable, c5gasTable, c5r250, c5r2525, c5r250]

/-- **C5 counterexample.** With the three channel names discovered in
order and three ranges discovered in order [250.0, 252.5, 250.0] — but no
gas-context table — MFC extraction assigns *nothing*: the range is only
assigned together with a gas type, and no `purge_1_mfc_range` key is
produced, contrary to the claim's unconditional pairing. -/
theorem claim_C5_counterexample :
    fieldDefinitions c5tablesNoGas
      = [(0, "purge_1"), (0, "purge_2"), (0, "protective")] ∧
    rangeTables c5tablesNoGas
      = [(1, Dyadic.norm 250 0), (2, Dyadic.norm 505 (-1)),
         (3, Dyadic.norm 250 0)] ∧
    mfcFields c5tablesNoGas = [] ∧
    (mfcPass c5tablesNoGas []).lookup "purge_1_mfc_range" = none := by
  refine ⟨by decide, by decide, rfl, rfl⟩

/-- **C5 (amended).** With the three channel names discovered in order
[Purge 1, Purge 2, Protective] and three range entries discovered in
order [250.0, 252.5, 250.0], **and a gas-context entry preceding each
range table**, MFC extraction pairs the n-th discovered name with the
n-th discovered range (purge_1 ↦ 250.0, purge_2 ↦ 252.5,
protective ↦ 250.0), attaching the nearest preceding gas; without a
preceding gas-context entry a channel gets neither gas nor range. -/
theorem claim_C5_amended (tables : List (List Nat)) (md : Metadata)
    (i1 i2 i3 r1 r2 r3 : Nat) (g1 g2 g3 : String)
    (hfd : fieldDefinitions tables
      = [(i1, "purge_1"), (i2, "purge_2"), (i3, "protective")])
    (hrt : rangeTables tables
      = [(r1, Dyadic.norm 250 0), (r2, Dyadic.norm 505 (-1)),
         (r3, Dyadic.norm 250 0)])
    (hg1 : gasLookback (gasContextMap tables) r1 = some g1)
    (hg2 : gasLookback (gasContextMap tables) r2 = some g2)
    (hg3 : gasLookback (gasContextMap tables) r3 = some g3) :
    ((mfcPass tables md).lookup "purge_1_mfc_range"
      = some (.num (.ofDy (Dyadic.norm 250 0)))) ∧
    ((mfcPass tables md).lookup "purge_2_mfc_range"
      = some (.num (.ofDy (Dyadic.norm 505 (-1))))) ∧
    ((mfcPass tables md).lookup "protective_mfc_range"
      = some (.num (.ofDy (Dyadic.norm 250 0)))) ∧
    ((mfcPass tables md).lookup "purge_1_mfc_gas" = some (.str (strCodes g1))) ∧
    ((mfcPass tables md).lookup "purge_2_mfc_gas" = some (.str (strCodes g2))) ∧
    ((mfcPass tables md).lookup "protective_mfc_gas" = some (.str (strCodes g3))) := by
  have hmf : mfcFields tables
      = [("purge_1_mfc_gas", .str (strCodes g1)),
         ("purge_1_mfc_range", .num (.ofDy (Dyadic.norm 250 0))),
         ("purge_2_mfc_gas", .str (strCodes g2)),
         ("purge_2_mfc_range", .num (.ofDy (Dyadic.norm 505 (-1)))),
         ("protective_mfc_gas", .str (strCodes g3)),
         ("protective_mfc_range", .num (.ofDy (Dyadic.norm 250 0)))] := by
    simp only [mfcFields, hfd, hrt]
    simp only [List.take, List.enum, List.enumFrom, List.foldl]
    rw [show (([(i1, "purge_1"), (i2, "purge_2"), (i3, "protective")]
        : List (Nat × String)).get? 0) = some (i1, "purge_1") from rfl]
    simp only [hg1, hg2, hg3]
    rfl
  have hpass : mfcPass tables md
      = mput (mput (mput (mput (mput (mput md
          "purge_1_mfc_gas" (.str (strCodes g1)))
          "purge_1_mfc_range" (.num (.ofDy (Dyadic.norm 250 0))))
          "purge_2_mfc_gas" (.str (strCodes g2)))
          "purge_2_mfc_range" (.num (.ofDy (Dyadic.norm 505 (-1)))))
          "protective_mfc_gas" (.str (strCodes g3)))
          "protective_mfc_range" (.num (.ofDy (Dyadic.norm 250 0))) := by
    unfold mfcPass
    rw [hmf]
    rfl
  rw [hpass]
  refine ⟨?_, ?_, ?_, ?_, ?_, ?_⟩
  · rw [lookup_mput_ne _ _ _ _ (by decide), lookup_mput_ne _ _ _ _ (by decide),
      lookup_mput_ne _ _ _ _ (by decide), lookup_mput_ne _ _ _ _ (by decide)]
    exact lookup_mput_self _ _ _
  · rw [lookup_mput_ne _ _ _ _ (by decide), lookup_mput_ne _ _ _ _ (by decide)]
    exact lookup_mput_self _ _ _
  · exact lookup_mput_self _ _ _
  · rw [lookup_mput_ne _ _ _ _ (by decide), lookup_mput_ne _ _ _ _ (by decide),
      lookup_mput_ne _ _ _ _ (by decide), lookup_mput_ne _ _ _ _ (by decide),
      lookup_mput_ne _ _ _ _ (by decide)]
    exact lookup_mput_self _ _ _
  · rw [lookup_mput_ne _ _ _ _ (by decide), lookup_mput_ne _ _ _ _ (by decide),
      lookup_mput_ne _ _ _ _ (by decide)]
    exact lookup_mput_self _ _ _
  · rw [lookup_mput_ne _ _ _ _ (by decide)]
    exact lookup_mput_self _ _ _

/-- Witness for the amended C5 on tables with one gas-context table
preceding all three range tables. -/
theorem claim_C5_amended_witness :
    ((mfcPass c5tablesGas []).lookup "purge_1_mfc_range"
      = some (.num (.ofDy (Dyadic.norm 250 0)))) ∧
    ((mfcPass c5tablesGas []).lookup "purge_2_mfc_range"
      = some (.num (.ofDy (Dyadic.norm 505 (-1))))) ∧
    ((mfcPass c5tablesGas []).lookup "protective_mfc_range"
      = some (.num (.ofDy (Dyadic.norm 250 0)))) := by
  have h := claim_C5_amended c5tablesGas [] 0 0 0 2 3 4
    "NITROGEN" "NITROGEN" "NITROGEN"
    (by decide) (by decide) (by decide) (by decide) (by decide)
  exact ⟨h.1, h.2.1, h.2.2.1⟩

/-! ## C4: stream-3 processing does not require stream 2 -/

/-- A pattern configuration with empty tables (the default tables live in
the missing `constants.py`; the C4 behaviour is independent of them). -/
def c4cfg : PatternConfig := ⟨[], [], [], [], [], [], []⟩

/-- A stream-3 byte buffer producing one header table (id `9c`,
signature `80 22 2b` at bytes 22–25) and one data table with two Float64
values. -/
def c4stream3 : List Nat :=
  [0x9C, 0x00] ++ modelMarkers.TABLE_SEPARATOR ++
    List.replicate 18 0 ++ [0x80, 0x22, 0x2B] ++
    [0x00, 0x75] ++ modelMarkers.TABLE_SEPARATOR ++
    [0x05] ++ modelMarkers.START_DATA ++ [0, 0, 0, 0] ++
    [0, 0, 0, 0, 0, 0, 0xF0, 0x3F] ++ [0, 0, 0, 0, 0, 0, 0, 0x40] ++
    modelMarkers.END_DATA

/-- An archive with stream 1 and an *empty* stream 3, without stream 2. -/
def c4archiveA : List (String × List Nat) :=
  [("Streams/stream_1.table", [0x00]), ("Streams/stream_3.table", [])]

/-- The same archive with non-trivial stream-3 contents. -/
def c4archiveB : List (String × List Nat) :=
  [("Streams/stream_1.table", [0x00]), ("Streams/stream_3.table", c4stream3)]

/-- **C4 counterexample.** Two archives lacking `Streams/stream_2.table`
and differing only in stream 3's contents parse to different measurement
tables — stream 3 *is* processed even without stream 2, so the returned
table is not independent of stream 3. -/
theorem claim_C4_counterexample :
    parseNGB c4cfg modelMarkers c4archiveA = .ok ([], []) ∧
    parseNGB c4cfg modelMarkers c4archiveB
      = .ok ([], [("9c", [.ofDy ⟨1, 0⟩, .ofDy ⟨1, 1⟩])]) ∧
    (([] : DataFrame) ≠ [("9c", [.ofDy ⟨1, 0⟩, .ofDy ⟨1, 1⟩])]) := by
  refine ⟨rfl, rfl, by decide⟩

/-- **C4 (amended).** `parse` processes `Streams/stream_3.table` whenever
that entry is present, regardless of stream 2: with stream 1 present,
stream 2 absent and stream 3 present, the returned table is
`process_stream_3` applied to stream 3's bytes and the empty frame. -/
theorem claim_C4_amended (cfg : PatternConfig) (mk : BinaryMarkers)
    (archive : List (String × List Nat)) (s1 s3 : List Nat) (md : Metadata)
    (h1 : archive.lookup "Streams/stream_1.table" = some s1)
    (h2 : archive.lookup "Streams/stream_2.table" = none)
    (h3 : archive.lookup "Streams/stream_3.table" = some s3)
    (hmd : pynetzschExtract cfg mk (split_tables mk.TABLE_SEPARATOR s1)
      = .ok md) :
    parseNGB cfg mk archive
      = (process_stream_3 cfg.column_map mk s3 []).map (fun df => (md, df)) := by
  unfold parseNGB
  simp only [h1, h2, h3]
  rw [hmd]
  simp only [exceptBind_ok]
  rcases hp : process_stream_3 cfg.column_map mk s3 [] with err | df
  · simp [hp, Except.map]
  · simp [hp, Except.map]

/-- Witness for the amended C4 at a concrete archive without stream 2. -/
theorem claim_C4_amended_witness :
    parseNGB c4cfg modelMarkers c4archiveB
      = (process_stream_3 c4cfg.column_map modelMarkers c4stream3 []).map
          (fun df => ([], df)) :=
  claim_C4_amended c4cfg modelMarkers c4archiveB [0x00] c4stream3 []
    rfl rfl rfl rfl

/-! ## C2: crucible-mass structural disambiguation -/

/-- A configuration whose only metadata pattern is the crucible-mass
pattern (category `91`, field `92` — stand-ins, the real pair being in
the missing `constants.py`). -/
def c2cfg : PatternConfig :=
  ⟨[], [("crucible_mass", ([0x91], [0x92]))], [], [], [], [], []⟩

/-- A stream-1 table holding one crucible-mass field of value 0.0 whose
lookbehind window carries the sample-crucible signature fragment. -/
def c2table : List Nat :=
  modelSigs.sample ++ [0x91] ++ [0x01] ++ [0x92] ++ [0x01] ++
    modelMarkers.TYPE_PREFIX ++ [0x05] ++ modelMarkers.TYPE_SEPARATOR ++
    [0, 0, 0, 0, 0, 0, 0, 0] ++ modelMarkers.END_FIELD

set_option maxRecDepth 10000

/-- **C2 counterexample.** The buffer's only crucible-mass occurrence is
sample-signed (and no reference-signed occurrence exists), yet its value
is *also* reported as `reference_crucible_mass`: the near-zero fallback
picks the very same sample-signed occurrence, contradicting "a
sample-signature occurrence is never reported as
reference_crucible_mass". -/
theorem claim_C2_counterexample :
    sampleSigOccs modelMarkers modelSigs [0x91] [0x92] c2table
      = [⟨2, .ofDy ⟨0, 0⟩, modelSigs.sample⟩] ∧
    refSigOccs modelMarkers modelSigs [0x91] [0x92] c2table = [] ∧
    ((extract_metadata c2cfg modelMarkers modelSigs [c2table]).lookup
      "crucible_mass" = some (.num (.ofDy ⟨0, 0⟩))) ∧
    ((extract_metadata c2cfg modelMarkers modelSigs [c2table]).lookup
      "reference_crucible_mass" = some (.num (.ofDy ⟨0, 0⟩))) := by
  refine ⟨by decide, by decide, rfl, rfl⟩

/-! ### Which keys each extraction pass can touch

To reason about the disambiguation output we show that none of the other
passes ever binds the crucible keys: the scalar pass binds only
configured field names (and `sample_mass`), the calibration pass only
`calibration_constants`, the temperature-program pass only
`temperature_program`, the MFC pass only the six `*_mfc_*` keys, and the
control pass only the six `furnace_*`/`sample_*` keys. -/

theorem lookup_msetdefaultDict_ne (md : Metadata) (key k : String)
    (h : k ≠ key) : (msetdefaultDict md key).lookup k = md.lookup k := by
  unfold msetdefaultDict
  by_cases hp : (md.lookup key).isSome
  · rw [if_pos hp]
  · rw [if_neg hp]
    exact lookup_append_right_ne md key k _ h

theorem lookup_calPass_ne (cfg : PatternConfig) (mk : BinaryMarkers)
    (md : Metadata) (t : List Nat) (k : String)
    (h : k ≠ "calibration_constants") :
    (calPass cfg mk md t).lookup k = md.lookup k := by
  unfold calPass
  by_cases hc : containsSub [0xF5, 0x01] t
  · rw [if_pos hc, lookup_mput_ne _ _ _ _ h, lookup_msetdefaultDict_ne _ _ _ h]
  · rw [if_neg hc]

theorem lookup_tempProgPass_ne (cfg : PatternConfig) (md : Metadata)
    (combined : List Nat) (k : String) (h : k ≠ "temperature_program") :
    (tempProgPass cfg md combined).lookup k = md.lookup k := by
  unfold tempProgPass
  rcases hms : cfg.temp_prog_patterns.filterMap (fun fp =>
      let found := tpFindall cfg fp.2 combined
      if found = [] then none else some (fp.1, found)) with _ | ⟨fm, fms⟩
  · simp only [hms]
    rw [if_pos trivial]
    exact lookup_msetdefaultDict_ne _ _ _ h
  · simp only [hms]
    rw [if_neg (by simp)]
    rw [lookup_mput_ne _ _ _ _ h, lookup_msetdefaultDict_ne _ _ _ h]

theorem lookup_applyScalarMatch_ne (fname : String)
    (st : Metadata × List (Nat × PyNum)) (m : FieldMatch) (k : String)
    (hk : k ≠ fname) (hs : k ≠ "sample_mass") :
    (applyScalarMatch fname st m).1.lookup k = st.1.lookup k := by
  unfold applyScalarMatch
  rcases parse_value m.dtype m.value with _ | v0
  · rfl
  · simp only
    by_cases h1 : fname = "crucible_mass"
    · rw [if_pos h1]
      rcases pyFloatOf (if fname = "date_performed" then dateTransform v0 else v0)
          with _ | n
      · simp only
        exact lookup_mputIfAbsent_ne _ _ _ _ hk
      · simp only
    · rw [if_neg h1]
      by_cases h2 : fname = "sample_mass"
      · rw [if_pos h2]
        rcases pyFloatOf (if fname = "date_performed" then dateTransform v0 else v0)
            with _ | n
        · simp only
          exact lookup_mputIfAbsent_ne _ _ _ _ hk
        · simp only
          exact lookup_mputIfAbsent_ne _ _ _ _ hs
      · rw [if_neg h2]
        exact lookup_mputIfAbsent_ne _ _ _ _ hk

theorem lookup_matchFold_ne (fname : String) (ms : List FieldMatch)
    (st : Metadata × List (Nat × PyNum)) (k : String)
    (hk : k ≠ fname) (hs : k ≠ "sample_mass") :
    ((ms.foldl (applyScalarMatch fname) st).1).lookup k = st.1.lookup k := by
  induction ms generalizing st with
  | nil => rfl
  | cons m rest ih =>
    rw [List.foldl_cons, ih (applyScalarMatch fname st m)]
    exact lookup_applyScalarMatch_ne fname st m k hk hs

theorem lookup_patternFold_ne (l : List (String × (List Nat × List Nat)))
    (mk : BinaryMarkers) (st : Metadata × List (Nat × PyNum)) (t : List Nat)
    (k : String) (hk : ∀ fp ∈ l, k ≠ fp.1) (hs : k ≠ "sample_mass") :
    ((l.foldl (fun st' fp =>
        (metaFinditer mk fp.2.1 fp.2.2 t).foldl (applyScalarMatch fp.1) st') st).1).lookup k
      = st.1.lookup k := by
  induction l generalizing st with
  | nil => rfl
  | cons fp rest ih =>
    rw [List.foldl_cons, ih _ (fun q hq => hk q (List.mem_cons_of_mem fp hq))]
    exact lookup_matchFold_ne fp.1 _ st k (hk fp (List.mem_cons_self fp rest)) hs

theorem lookup_tableFold_ne (cfg : PatternConfig) (mk : BinaryMarkers)
    (tables : List (List Nat)) (st : Metadata × List (Nat × PyNum)) (k : String)
    (hk : ∀ fp ∈ cfg.metadata_patterns, k ≠ fp.1) (hs : k ≠ "sample_mass")
    (hc : k ≠ "calibration_constants") :
    ((tables.foldl (fun st' t =>
        let st1 := scalarPassTable cfg mk st' t
        (calPass cfg mk st1.1 t, st1.2)) st).1).lookup k = st.1.lookup k := by
  induction tables generalizing st with
  | nil => rfl
  | cons t rest ih =>
    rw [List.foldl_cons, ih _]
    simp only
    rw [lookup_calPass_ne _ _ _ _ _ hc]
    exact lookup_patternFold_ne cfg.metadata_patterns mk st t k hk hs

theorem fieldDefinitions_snd_mem (tables : List (List Nat)) :
    ∀ x ∈ fieldDefinitions tables,
      x.2 = "purge_1" ∨ x.2 = "purge_2" ∨ x.2 = "protective" := by
  intro x hx
  unfold fieldDefinitions at hx
  rw [List.mem_filterMap] at hx
  obtain ⟨nm, hnm, hmap⟩ := hx
  rcases ho : tables.enum.find? (fun it => containsSub (utf16le nm) it.2)
      with _ | it
  · rw [ho] at hmap
    simp at hmap
  · rw [ho] at hmap
    simp only [Option.map_some', Option.some.injEq] at hmap
    have hx2 : x.2 = mfcFieldKey nm := by rw [← hmap]
    fin_cases hnm
    · exact Or.inl (by rw [hx2]; decide)
    · exact Or.inr (Or.inl (by rw [hx2]; decide))
    · exact Or.inr (Or.inr (by rw [hx2]; decide))

/-- The six possible MFC metadata keys. -/
def mfcKeyPred (k : String) : Prop :=
  k = "purge_1_mfc_gas" ∨ k = "purge_1_mfc_range" ∨
  k = "purge_2_mfc_gas" ∨ k = "purge_2_mfc_range" ∨
  k = "protective_mfc_gas" ∨ k = "protective_mfc_range"

theorem mfcFields_key (tables : List (List Nat)) :
    ∀ kv ∈ mfcFields tables, mfcKeyPred kv.1 := by
  unfold mfcFields
  suffices h : ∀ (l : List (Nat × (Nat × Dyadic))) (init : List (String × MValue)),
      (∀ kv ∈ init, mfcKeyPred kv.1) →
      ∀ kv ∈ l.foldl
        (fun acc fr =>
          match (fieldDefinitions tables).get? fr.1 with
          | none => acc
          | some fd =>
            match gasLookback (gasContextMap tables) fr.2.1 with
            | none => acc
            | some g =>
              acc ++ [(fd.2 ++ "_mfc_gas", .str (strCodes g)),
                      (fd.2 ++ "_mfc_range", .num (.ofDy fr.2.2))]) init,
        mfcKeyPred kv.1 by
    exact h _ [] (by intro kv hkv; exact absurd hkv (List.not_mem_nil kv))
  intro l
  induction l with
  | nil =>
    intro init hinit kv hkv
    exact hinit kv hkv
  | cons x xs ih =>
    intro init hinit kv hkv
    rw [List.foldl_cons] at hkv
    refine ih _ ?_ kv hkv
    intro kv' hkv'
    rcases hf : (fieldDefinitions tables).get? x.1 with _ | fd
    · rw [hf] at hkv'
      exact hinit kv' hkv'
    · rw [hf] at hkv'
      rcases hg : gasLookback (gasContextMap tables) x.2.1 with _ | g
      · rw [hg] at hkv'
        exact hinit kv' hkv'
      · rw [hg] at hkv'
        rcases List.mem_append.mp hkv' with hin | hnew
        · exact hinit kv' hin
        · have hfd := fieldDefinitions_snd_mem tables fd (List.get?_mem hf)
          rcases List.mem_cons.mp hnew with rfl | hnew2
          · rcases hfd with h2 | h2 | h2 <;>
              simp only [mfcKeyPred, h2] <;> simp
          · rcases List.mem_cons.mp hnew2 with rfl | hnil
            · rcases hfd with h2 | h2 | h2 <;>
                simp only [mfcKeyPred, h2] <;> simp
            · exact absurd hnil (List.not_mem_nil kv')

theorem lookup_foldl_mput_of_ne (l : List (String × MValue)) (md : Metadata)
    (k : String) (h : ∀ kv ∈ l, kv.1 ≠ k) :
    (l.foldl (fun m kv => mput m kv.1 kv.2) md).lookup k = md.lookup k := by
  induction l generalizing md with
  | nil => rfl
  | cons kv rest ih =>
    rw [List.foldl_cons, ih _ (fun q hq => h q (List.mem_cons_of_mem kv hq))]
    exact lookup_mput_ne md kv.1 k kv.2
      (fun hc => h kv (List.mem_cons_self kv rest) hc.symm)

theorem lookup_mfcPass_ne (tables : List (List Nat)) (md : Metadata)
    (k : String) (h : ¬ mfcKeyPred k) :
    (mfcPass tables md).lookup k = md.lookup k := by
  unfold mfcPass
  refine lookup_foldl_mput_of_ne _ md k ?_
  intro kv hkv hc
  exact h (hc ▸ mfcFields_key tables kv hkv)

theorem lookup_pidWrite_ne (md : Metadata) (pre : String) (p : PidParams)
    (k : String) (hx : k ≠ pre ++ "xp") (hn : k ≠ pre ++ "tn")
    (ht : k ≠ pre ++ "tv") :
    (pidWrite md pre p).lookup k = md.lookup k := by
  unfold pidWrite
  rcases p.xp with _ | v1 <;> rcases p.tn with _ | v2 <;> rcases p.tv with _ | v3 <;>
    simp only
  all_goals
    repeat first
      | rw [lookup_mput_ne _ _ _ _ ht]
      | rw [lookup_mput_ne _ _ _ _ hn]
      | rw [lookup_mput_ne _ _ _ _ hx]

theorem lookup_controlPass_ne (tables : List (List Nat)) (md : Metadata)
    (k : String)
    (h1 : k ≠ "furnace_" ++ "xp") (h2 : k ≠ "furnace_" ++ "tn")
    (h3 : k ≠ "furnace_" ++ "tv") (h4 : k ≠ "sample_" ++ "xp")
    (h5 : k ≠ "sample_" ++ "tn") (h6 : k ≠ "sample_" ++ "tv") :
    (controlPass tables md).lookup k = md.lookup k := by
  unfold controlPass
  rcases controlTables tables with _ | ⟨c1, _ | ⟨c2, rest⟩⟩
  · rfl
  · rfl
  · simp only
    rw [lookup_pidWrite_ne _ _ _ _ h4 h5 h6, lookup_pidWrite_ne _ _ _ _ h1 h2 h3]

theorem earliestOcc_none_iff (l : List COcc) : earliestOcc l = none ↔ l = [] := by
  cases l with
  | nil => simp [earliestOcc]
  | cons o rest =>
    simp only [earliestOcc]
    cases earliestOcc rest <;> simp

/-- The two crucible-key lookups of the disambiguation pass, given an
earliest sample-signed occurrence and no pre-existing
`reference_crucible_mass` binding. -/
theorem disambiguation_lookup (mk : BinaryMarkers) (sigs : SigFragments)
    (cat fld combined : List Nat) (md : Metadata) (o : COcc)
    (hs : earliestOcc (sampleSigOccs mk sigs cat fld combined) = some o)
    (href0 : md.lookup "reference_crucible_mass" = none) :
    ((disambiguationPass mk sigs cat fld combined md).lookup "crucible_mass"
       = some (.num o.val)) ∧
    ((disambiguationPass mk sigs cat fld combined md).lookup
        "reference_crucible_mass"
       = (match earliestOcc (refSigOccs mk sigs cat fld combined) with
          | some r => some (.num r.val)
          | none =>
            match earliestOcc (zeroValOccs mk cat fld combined) with
            | some z => some (.num z.val)
            | none => none)) := by
  unfold disambiguationPass
  -- step 1: crucible_mass from the earliest sample-signed occurrence
  have e1 : crucibleSetStep mk sigs cat fld combined md
      = mput md "crucible_mass" (.num o.val) := by
    unfold crucibleSetStep
    rw [hs]
  rw [e1]
  have hm1c : (mput md "crucible_mass" (.num o.val)).lookup "crucible_mass"
      = some (.num o.val) := lookup_mput_self _ _ _
  have hm1r : (mput md "crucible_mass" (.num o.val)).lookup
      "reference_crucible_mass" = none := by
    rw [lookup_mput_ne _ _ _ _ (by decide)]
    exact href0
  -- step 3 helper: the sample-mass walk never touches the crucible keys
  have step3 : ∀ (m2 : Metadata) (rv : Option MValue),
      m2.lookup "crucible_mass" = some (.num o.val) →
      m2.lookup "reference_crucible_mass" = rv →
      ∃ m3 : Metadata,
        sampleMassStep mk sigs cat fld combined m2 = m3 ∧
        m3.lookup "crucible_mass" = some (.num o.val) ∧
        m3.lookup "reference_crucible_mass" = rv := by
    intro m2 rv hc hrf
    unfold sampleMassStep
    simp only [hs]
    by_cases hsm : (m2.lookup "sample_mass").isSome
    · exact ⟨m2, by rw [if_pos hsm], hc, hrf⟩
    · rcases hw : walkField mk (sliceN combined (o.pos - 256) o.pos) with _ | q
      · exact ⟨m2, by rw [if_neg hsm], hc, hrf⟩
      · refine ⟨mput m2 "sample_mass" (.num q), by rw [if_neg hsm], ?_, ?_⟩
        · rw [lookup_mput_ne _ _ _ _ (by decide)]
          exact hc
        · rw [lookup_mput_ne _ _ _ _ (by decide)]
          exact hrf
  rcases hr : earliestOcc (refSigOccs mk sigs cat fld combined) with _ | r
  · -- no reference-signed occurrence: step 2 is the identity
    have e2 : refSetStep mk sigs cat fld combined
        (mput md "crucible_mass" (.num o.val))
        = mput md "crucible_mass" (.num o.val) := by
      unfold refSetStep
      rw [hr]
    rw [e2]
    obtain ⟨m3, e3, hm3c, hm3r⟩ := step3 _ none hm1c hm1r
    rw [e3]
    rcases hz : earliestOcc (zeroValOccs mk cat fld combined) with _ | z
    · -- no near-zero occurrence: both fallbacks are skipped
      have hze : zeroValOccs mk cat fld combined = [] :=
        (earliestOcc_none_iff _).mp hz
      have e4 : zeroFallbackStep mk cat fld combined m3 = m3 := by
        unfold zeroFallbackStep
        rw [hze]
        simp
      rw [e4]
      have e5 : finalFallbackStep mk cat fld combined m3 = m3 := by
        unfold finalFallbackStep
        rw [hm3c]
        simp
      rw [e5]
      exact ⟨hm3c, hm3r⟩
    · -- the near-zero fallback fires
      have hzne : ¬ (zeroValOccs mk cat fld combined).isEmpty := by
        intro hcon
        rw [List.isEmpty_iff] at hcon
        rw [hcon] at hz
        simp [earliestOcc] at hz
      have e4 : zeroFallbackStep mk cat fld combined m3
          = mput m3 "reference_crucible_mass" (.num z.val) := by
        unfold zeroFallbackStep
        rw [hm3c, hm3r, hz]
        simp only [Option.isSome_some, Option.isSome_none, Bool.not_false,
          Bool.true_and]
        rw [if_pos (by simpa using hzne)]
      rw [e4]
      have hm4c : (mput m3 "reference_crucible_mass" (.num z.val)).lookup
          "crucible_mass" = some (.num o.val) := by
        rw [lookup_mput_ne _ _ _ _ (by decide)]
        exact hm3c
      have e5 : finalFallbackStep mk cat fld combined
          (mput m3 "reference_crucible_mass" (.num z.val))
          = mput m3 "reference_crucible_mass" (.num z.val) := by
        unfold finalFallbackStep
        rw [hm4c]
        simp
      rw [e5]
      exact ⟨hm4c, lookup_mput_self _ _ _⟩
  · -- a reference-signed occurrence exists
    have e2 : ∃ m2 : Metadata,
        refSetStep mk sigs cat fld combined
          (mput md "crucible_mass" (.num o.val)) = m2 ∧
        m2.lookup "crucible_mass" = some (.num o.val) ∧
        m2.lookup "reference_crucible_mass" = some (.num r.val) := by
      unfold refSetStep
      simp only [hr]
      rcases hw : walkField mk (sliceN combined (r.pos - 256) r.pos) with _ | q
      · refine ⟨_, rfl, ?_, lookup_mput_self _ _ _⟩
        rw [lookup_mput_ne _ _ _ _ (by decide)]
        exact hm1c
      · refine ⟨_, rfl, ?_, ?_⟩
        · rw [lookup_mputIfAbsent_ne _ _ _ _ (by decide),
            lookup_mput_ne _ _ _ _ (by decide)]
          exact hm1c
        · rw [lookup_mputIfAbsent_ne _ _ _ _ (by decide)]
          exact lookup_mput_self _ _ _
    obtain ⟨m2, e2eq, hm2c, hm2r⟩ := e2
    rw [e2eq]
    obtain ⟨m3, e3, hm3c, hm3r⟩ := step3 m2 (some (.num r.val)) hm2c hm2r
    rw [e3]
    have e4 : zeroFallbackStep mk cat fld combined m3 = m3 := by
      unfold zeroFallbackStep
      rw [hm3r]
      simp
    rw [e4]
    have e5 : finalFallbackStep mk cat fld combined m3 = m3 := by
      unfold finalFallbackStep
      rw [hm3c]
      simp
    rw [e5]
    exact ⟨hm3c, hm3r⟩

/-- **C2 (amended).** With the crucible-mass pattern configured and the
per-table pass having collected at least one numeric occurrence, the
earliest sample-signed occurrence over the combined stream-1 bytes is
reported as `crucible_mass`; `reference_crucible_mass` is the earliest
reference-signed occurrence when one exists, **otherwise the earliest
near-zero occurrence (which may itself be sample-signed)**, and is absent
when neither exists.  (The unsigned occurrences elsewhere in the buffer
influence neither key beyond those fallbacks.) -/
theorem claim_C2_amended (cfg : PatternConfig) (mk : BinaryMarkers)
    (sigs : SigFragments) (tables : List (List Nat)) (cat fld : List Nat)
    (o : COcc)
    (hcfg : cfg.metadata_patterns = [("crucible_mass", (cat, fld))])
    (hcms : crucibleMassesCollected cfg mk tables ≠ [])
    (hs : earliestOcc (sampleSigOccs mk sigs cat fld tables.flatten) = some o) :
    ((extract_metadata cfg mk sigs tables).lookup "crucible_mass"
      = some (.num o.val)) ∧
    ((extract_metadata cfg mk sigs tables).lookup "reference_crucible_mass"
      = (match earliestOcc (refSigOccs mk sigs cat fld tables.flatten) with
         | some r => some (.num r.val)
         | none =>
           match earliestOcc (zeroValOccs mk cat fld tables.flatten) with
           | some z => some (.num z.val)
           | none => none)) := by
  have hcond : (!(crucibleMassesCollected cfg mk tables).isEmpty) = true := by
    simp [List.isEmpty_iff, hcms]
  have hcp : crucibleParams cfg = some (cat, fld) := by
    rw [crucibleParams, hcfg]
    simp [List.lookup]
  have hext : extract_metadata cfg mk sigs tables
      = disambiguationPass mk sigs cat fld tables.flatten
          (preDisambMetadata cfg mk tables) := by
    unfold extract_metadata
    rw [if_pos hcond, hcp]
  rw [hext]
  have hk : ∀ fp ∈ cfg.metadata_patterns, "reference_crucible_mass" ≠ fp.1 := by
    rw [hcfg]
    intro fp hfp
    rw [List.mem_singleton] at hfp
    subst hfp
    show "reference_crucible_mass" ≠ "crucible_mass"
    decide
  have hpre : (preDisambMetadata cfg mk tables).lookup "reference_crucible_mass"
      = none := by
    unfold preDisambMetadata
    rw [lookup_controlPass_ne _ _ _ (by decide) (by decide) (by decide)
      (by decide) (by decide) (by decide)]
    rw [lookup_mfcPass_ne _ _ _ (by unfold mfcKeyPred; decide)]
    rw [lookup_tempProgPass_ne _ _ _ _ (by decide)]
    rw [lookup_tableFold_ne cfg mk tables ([], []) _ hk (by decide) (by decide)]
    rfl
  exact disambiguation_lookup mk sigs cat fld tables.flatten _ o hs hpre

/-- A stream-1 table with one sample-signed crucible-mass field of value
1.0 (no reference-signed and no near-zero occurrence). -/
def c2tableB : List Nat :=
  modelSigs.sample ++ [0x91] ++ [0x01] ++ [0x92] ++ [0x01] ++
    modelMarkers.TYPE_PREFIX ++ [0x05] ++ modelMarkers.TYPE_SEPARATOR ++
    [0, 0, 0, 0, 0, 0, 0xF0, 0x3F] ++ modelMarkers.END_FIELD

/-- Witness for the amended C2: the sample-signed 1.0 occurrence becomes
`crucible_mass`, and with no reference-signed and no near-zero
occurrence no `reference_crucible_mass` is reported. -/
theorem claim_C2_amended_witness :
    ((extract_metadata c2cfg modelMarkers modelSigs [c2tableB]).lookup
      "crucible_mass" = some (.num (.ofDy ⟨1, 0⟩))) ∧
    ((extract_metadata c2cfg modelMarkers modelSigs [c2tableB]).lookup
      "reference_crucible_mass" = none) := by
  have h := claim_C2_amended c2cfg modelMarkers modelSigs [c2tableB]
    [0x91] [0x92] ⟨2, .ofDy ⟨1, 0⟩, modelSigs.sample⟩
    rfl (by decide) (by decide)
  exact ⟨h.1, h.2.trans (by rfl)⟩

end NGB
